import Mathlib

/-!
# clogger: a shallow embedding of `clogger.h` / `clogger.cpp`

Text (`std::string`, the content of a `std::ostream`) is a list of characters.
`unsigned int` values (levels, masks, colour codes, widths, loop counters) are
natural numbers; the only arithmetic that can wrap on values a caller chooses
is `color + 10` in `setBGcolor`, which carries its `% 2 ^ 32`.  The counters
that follow the call-stack (`m_stack.size()` passed to `indent`, `indentLevel`
in `printStack`) stay exact: a call-stack is taken to hold fewer than `2 ^ 32`
entries.  Only the content of a stream is modelled, not its formatting flags.
Undefined behaviour (`front()` on an empty `std::deque` in `_funcArgs`) is the
result `none`.

References (`LoggerSettings &`, `std::ostream &`) are indices into a `World`
that holds every stream and every configuration of the process.  Index `0` of
the configurations is the global `defaultLoggerSettings`.
-/

namespace Clogger

/-- Text: the characters of a `std::string` or of a stream. -/
abbrev Str := List Char

/-! ## `enum LoggerType` -/

abbrev log_none : Nat := 0b000000
abbrev log_func : Nat := 0b000001
abbrev log_arg : Nat := 0b000010
abbrev log_stack : Nat := 0b000100
abbrev log_log : Nat := 0b001000
abbrev log_warn : Nat := 0b010000
abbrev log_error : Nat := 0b100000
abbrev log_std : Nat := 0b110100
abbrev log_all : Nat := 0b111111

/-! ## `enum LoggerColor` -/

abbrev color_nocolor : Nat := 0
abbrev color_black : Nat := 30
abbrev color_red : Nat := 31
abbrev color_green : Nat := 32
abbrev color_yellow : Nat := 33
abbrev color_blue : Nat := 34
abbrev color_magenta : Nat := 35
abbrev color_cyan : Nat := 36
abbrev color_white : Nat := 37

/-- The escape character `\x1b`. -/
abbrev ESC : Char := Char.ofNat 27

/-- Decimal text of an `unsigned int`, as `operator<<` prints it. -/
def decimal (n : Nat) : Str := Nat.toDigits 10 n

/-! ## `class LoggerSettings` -/

/-- Fields of `class LoggerSettings`; `m_out` is the index of the bound stream. -/
structure LoggerSettings where
  m_out : Nat
  m_printColor : Bool
  m_mask : Nat
  m_indentWidth : Nat
  m_stack : List Str

/-- Fields of `class Logger`; `m_settings` is the index of the bound configuration. -/
structure Logger where
  m_settings : Nat
  m_endl : Bool
  m_type : Nat
  m_line : Str
deriving DecidableEq

/-- Everything the process holds: the content of each stream, each
configuration, and the records destroyed so far, oldest first (bookkeeping of
the embedding: it records each run of `Logger::~Logger` and is read by nothing). -/
structure World where
  streams : Nat → Str
  settings : Nat → LoggerSettings
  finalised : List Logger

/-- Index of the global `defaultLoggerSettings`. -/
abbrev defaultLoggerSettings : Nat := 0

/-- Constructor `LoggerSettings(mask, showColor, out)`: the indent width starts
at 2 and the call-stack empty. -/
def LoggerSettings.new (mask : Nat) (showColor : Bool) (out : Nat) : LoggerSettings :=
  { m_out := out, m_printColor := showColor, m_mask := mask, m_indentWidth := 2, m_stack := [] }

/-- `LoggerSettings()` with the default arguments of its declaration:
`mask = log_std`, `showColor = true`, `out = std::cout`, here stream 0. -/
def LoggerSettings.newDefault : LoggerSettings :=
  LoggerSettings.new log_std true 0

/-- Text `out << s` on the stream of index `out`. -/
def World.write (w : World) (out : Nat) (s : Str) : World :=
  { w with streams := Function.update w.streams out (w.streams out ++ s) }

/-- Replace the configuration of index `r`. -/
def World.setSettings (w : World) (r : Nat) (s : LoggerSettings) : World :=
  { w with settings := Function.update w.settings r s }

def LoggerSettings.setMask (s : LoggerSettings) (mask : Nat) : LoggerSettings :=
  { s with m_mask := mask }

def LoggerSettings.mask (s : LoggerSettings) : Nat := s.m_mask

def LoggerSettings.setIndentWidth (s : LoggerSettings) (indentWidth : Nat) : LoggerSettings :=
  { s with m_indentWidth := indentWidth }

def LoggerSettings.indentWidth (s : LoggerSettings) : Nat := s.m_indentWidth

def LoggerSettings.toggleColor (s : LoggerSettings) : LoggerSettings :=
  { s with m_printColor := !s.m_printColor }

def LoggerSettings.usingColor (s : LoggerSettings) : Bool := s.m_printColor

/-- `beginFunction(name)`: `m_stack.push_back(name)`. -/
def LoggerSettings.beginFunction (s : LoggerSettings) (name : Str) : LoggerSettings :=
  { s with m_stack := s.m_stack ++ [name] }

/-- `endFunction()`: `pop_back` unless the stack is empty. -/
def LoggerSettings.endFunction (s : LoggerSettings) : LoggerSettings :=
  if s.m_stack.isEmpty then s else { s with m_stack := s.m_stack.dropLast }

/-- `indent(unsigned int indentLevel)`: the two nested loops, each inner turn
appending one space. -/
def LoggerSettings.indent (s : LoggerSettings) (indentLevel : Nat) : Str :=
  (List.range indentLevel).foldl
    (fun str _ => (List.range s.m_indentWidth).foldl (fun str _ => str ++ [' ']) str) []

/-- `indent()`: `indent(m_stack.size())`. -/
def LoggerSettings.indentDepth (s : LoggerSettings) : Str :=
  s.indent s.m_stack.length

/-! ## `class Logger` -/

/-- Protected constructor `Logger(bool endl, LoggerSettings & settings)`. -/
def Logger.newEndl (endl : Bool) (settings : Nat) : Logger :=
  { m_settings := settings, m_endl := endl, m_type := log_log, m_line := [] }

/-- Public constructor `Logger(LoggerSettings & settings)`. -/
def Logger.new (settings : Nat) : Logger :=
  Logger.newEndl true settings

/-- `setColorCode(out, colorCode)`; `out` is the content of the stream written to. -/
def Logger.setColorCode (w : World) (L : Logger) (out : Str) (colorCode : Nat) : Str :=
  if (w.settings L.m_settings).usingColor then
    out ++ [ESC, '['] ++ decimal colorCode ++ ['m']
  else out

def Logger.setFGcolor (w : World) (L : Logger) (out : Str) (color : Nat) : Str :=
  L.setColorCode w out color

def Logger.setBGcolor (w : World) (L : Logger) (out : Str) (color : Nat) : Str :=
  L.setColorCode w out ((color + 10) % 2 ^ 32)

/-- `printColoredMessageHeader(out, msgColor, header)`. -/
def Logger.printColoredMessageHeader (w : World) (L : Logger) (out : Str) (msgColor : Nat)
    (header : Str) : Str :=
  let out := L.setFGcolor w out color_black
  let out := L.setBGcolor w out msgColor
  let out := out ++ header ++ [':']
  let out := L.setFGcolor w out color_nocolor
  let out := L.setFGcolor w out msgColor
  out ++ [' ']

/-- Values streamed into a record with `operator<<`, one constructor per
overload the repository uses: a `LoggerType`, a `LoggerColor`, a `bool`, text
(`std::string`, string literal, `std::stringstream`, or the default text of a
floating-point value), and an integer. -/
inductive LogValue where
  | type (t : Nat)
  | color (c : Nat)
  | bool (b : Bool)
  | text (s : Str)
  | int (i : Int)

/-- Default text of an `int`. -/
def intText (i : Int) : Str :=
  match i with
  | Int.ofNat n => decimal n
  | Int.negSucc n => '-' :: decimal (n + 1)

/-- `operator<<`: the generic template and its specialisations. -/
def Logger.shl (w : World) (L : Logger) (rhs : LogValue) : Logger :=
  match rhs with
  | .type t => { L with m_type := t }
  | .color c => { L with m_line := L.setFGcolor w L.m_line c }
  | .bool b => { L with m_line := L.m_line ++ (if b then "true".toList else "false".toList) }
  | .text s => { L with m_line := L.m_line ++ s }
  | .int i => { L with m_line := L.m_line ++ intText i }

/-- A chain `L << v1 << v2 << ...`. -/
def Logger.shlAll (w : World) (L : Logger) (vs : List LogValue) : Logger :=
  vs.foldl (fun L v => L.shl w v) L

/-- A chain `L << v1 << v2 << ...` during which the process may change: each
value comes with the world it is streamed in. -/
def Logger.shlIn (L : Logger) (steps : List (World × LogValue)) : Logger :=
  steps.foldl (fun L p => L.shl p.1 p.2) L

/-- What the `switch (m_type)` of `Logger::~Logger` does: the new content of
the sink and the value of `printingStack`. -/
def Logger.switchType (w : World) (L : Logger) (out : Str) : Str × Bool :=
  if L.m_type = log_warn then
    (L.printColoredMessageHeader w out color_yellow "WARNING".toList, true)
  else if L.m_type = log_error then
    (L.printColoredMessageHeader w out color_red "ERROR".toList, true)
  else if L.m_type = log_stack then
    (L.setFGcolor w out color_cyan, false)
  else if (w.settings L.m_settings).mask &&& log_func ≠ 0 then
    (out ++ (w.settings L.m_settings).indentDepth, false)
  else (out, false)

/-- Rank of a record for the recursion between `~Logger` and `printStack`. -/
def Logger.rank (L : Logger) : Nat :=
  if L.m_type = log_warn ∨ L.m_type = log_error then 2 else 0

mutual

/-- Destructor `Logger::~Logger`.  Its first line notes the run in `finalised`;
the rest follows the source statement by statement. -/
def Logger.destroy (w : World) (L : Logger) : World :=
  let w := { w with finalised := w.finalised ++ [L] }
  let out := (w.settings L.m_settings).m_out
  if L.m_type &&& (w.settings L.m_settings).mask ≠ 0 then
    let sw := L.switchType w (w.streams out)
    let w := { w with streams := Function.update w.streams out sw.1 }
    let w := w.write out L.m_line
    if L.m_endl then
      let w := { w with streams := Function.update w.streams out
                          (L.setFGcolor w (w.streams out) color_nocolor) }
      let w := w.write out ['\n']
      if _h : sw.2 = true then
        LoggerSettings.printStack w L.m_settings
      else w
    else w
  else w
termination_by (L.rank, 0)
decreasing_by
  have h2 : L.rank = 2 := by
    have h1 := _h
    simp only [sw, Logger.switchType] at h1
    unfold Logger.rank
    split_ifs at h1 ⊢ <;> simp_all
  rw [h2]
  exact Prod.Lex.left _ _ (by decide)

/-- `LoggerSettings::printStack()` of the configuration of index `self`. -/
def LoggerSettings.printStack (w : World) (self : Nat) : World :=
  LoggerSettings.printStackLoop w self (w.settings self).m_stack 0
termination_by (1, (w.settings self).m_stack.length + 1)
decreasing_by
  exact Prod.Lex.right _ (by omega)

/-- The range-`for` of `printStack` over the entries still to visit. -/
def LoggerSettings.printStackLoop (w : World) (self : Nat) (rest : List Str)
    (indentLevel : Nat) : World :=
  match rest with
  | [] => w
  | stackLine :: rest =>
    let indentLevel := indentLevel + 1
    let w := Logger.destroy w
      (((((Logger.new defaultLoggerSettings).shl w (.type log_stack)).shl w
        (.text ((w.settings self).indent indentLevel))).shl w (.text stackLine)))
    LoggerSettings.printStackLoop w self rest indentLevel
termination_by (1, rest.length)
decreasing_by
  all_goals simp_wf
  · exact Prod.Lex.left _ _ (by simp [Logger.rank, Logger.shl, Logger.new, Logger.newEndl])
  · exact Prod.Lex.right _ (by simp)

end

/-! ## `class FuncTracer` -/

/-- Fields of `class FuncTracer`; `m_startTime` is a clock reading and is left
out: the destructor receives the text of the elapsed seconds instead. -/
structure FuncTracer where
  m_addParenthesis : Bool
  m_settings : Nat
  m_name : Str

/-- Constructor `FuncTracer(classname, funcname, addParenthesis, settings)`. -/
def FuncTracer.new (w : World) (classname funcname : Str) (addParenthesis : Bool)
    (settings : Nat) : World × FuncTracer :=
  let m_name := (if classname ≠ [] then classname ++ "::".toList else []) ++ funcname ++
    (if addParenthesis then "()".toList else [])
  let w := Logger.destroy w
    ((((Logger.new settings).shl w (.type log_func)).shl w (.text m_name)).shl w
      (.text " \x7b".toList))
  let w := w.setSettings settings ((w.settings settings).beginFunction m_name)
  (w, { m_addParenthesis := addParenthesis, m_settings := settings, m_name := m_name })

/-- Constructor `FuncTracer(funcname, addParenthesis, settings)`. -/
def FuncTracer.newFunc (w : World) (funcname : Str) (addParenthesis : Bool)
    (settings : Nat) : World × FuncTracer :=
  FuncTracer.new w [] funcname addParenthesis settings

/-- Constructor `FuncTracer(addParenthesis, settings)`. -/
def FuncTracer.newAnon (w : World) (addParenthesis : Bool) (settings : Nat) :
    World × FuncTracer :=
  FuncTracer.new w [] [] addParenthesis settings

/-- Destructor `FuncTracer::~FuncTracer`; `time_span` is the default text of
`time_span.count()`. -/
def FuncTracer.destroy (w : World) (self : FuncTracer) (time_span : Str) : World :=
  let w := Logger.destroy w
    ((((((Logger.new self.m_settings).shl w (.type log_func)).shl w
      (.text "FUNC_TIME; ".toList)).shl w (.text time_span)).shl w
      (.text "; ".toList)).shl w (.text self.m_name))
  let w := w.setSettings self.m_settings (w.settings self.m_settings).endFunction
  Logger.destroy w
    ((((Logger.new self.m_settings).shl w (.type log_func)).shl w (.text "\x7d ".toList)).shl w
      (.text self.m_name))

/-! ## `FuncArg`, `_funcArgs`, `FuncArgs` -/

/-- Primary template `FuncArg<T>(argname, argvalue, settings)`; the value is
streamed with the `operator<<` overload of its type. -/
def FuncArg (w : World) (argname : Str) (argvalue : LogValue) (settings : Nat) : World :=
  Logger.destroy w
    (((((Logger.new settings).shl w (.type log_arg)).shl w (.text argname)).shl w
      (.text " = ".toList)).shl w argvalue)

/-- Specialisation `FuncArg<std::string>(argname, argvalue, settings)`. -/
def FuncArgString (w : World) (argname argvalue : Str) (settings : Nat) : World :=
  Logger.destroy w
    ((((((Logger.new settings).shl w (.type log_arg)).shl w (.text argname)).shl w
      (.text " = '".toList)).shl w (.text argvalue)).shl w (.text "'".toList))

/-- An argument value as the call `FuncArg(argname, argvalue)` sees it: a
`std::string`, for which the specialisation is chosen, or a value of another
type, which goes to the primary template. -/
inductive ArgValue where
  | string (s : Str)
  | other (v : LogValue)

/-- The call `FuncArg(argname, argvalue, settings)` after template deduction. -/
def FuncArgCall (w : World) (argname : Str) (argvalue : ArgValue) (settings : Nat) : World :=
  match argvalue with
  | .string s => FuncArgString w argname s settings
  | .other v => FuncArg w argname v settings

/-- The overloads of `_funcArgs(argnames, argvalues...)`: with no value left it
returns; otherwise it takes `argnames.front()`, pops it, calls
`FuncArg(argname, argvalue)` on the default configuration and recurses.  Taking
the front of an empty deque is undefined behaviour: the result is `none`. -/
def _funcArgs (w : World) (argnames : List Str) : List ArgValue → Option World
  | [] => some w
  | argvalue :: argvalues =>
    match argnames with
    | [] => none
    | argname :: argnames =>
      _funcArgs (FuncArgCall w argname argvalue defaultLoggerSettings) argnames argvalues

/-- One turn of the `for` loop of `FuncArgs` on character `c`; the state is
`argname` (the name being read) and `t_argnames` (the names read so far). -/
def FuncArgs.turn (st : Str × List Str) (c : Char) : Str × List Str :=
  if c = ',' then ([], st.2 ++ [st.1])
  else if c ≠ ' ' then (st.1 ++ [c], st.2)
  else st

/-- The deque `t_argnames` that `FuncArgs` builds from the string `argnames`. -/
def FuncArgs.names (argnames : Str) : List Str :=
  (argnames.foldl FuncArgs.turn ([], [])).2 ++ [(argnames.foldl FuncArgs.turn ([], [])).1]

/-- Template `FuncArgs(argnames, argvalues...)`. -/
def FuncArgs (w : World) (argnames : Str) (argvalues : List ArgValue) : Option World :=
  _funcArgs w (FuncArgs.names argnames) argvalues

/-! ## Traced scopes -/

/-- A step in a run of traced scopes: entering a scope constructs a
`FuncTracer`, leaving it destroys one (with the text of its elapsed time). -/
inductive ScopeEvent where
  | enter (classname funcname : Str) (addParenthesis : Bool)
  | leave (time_span : Str)

/-- A run of traced scopes on the configuration `settings`.  The live tracers
are kept innermost first; `leave` destroys the innermost one, as scoped objects
are destroyed in the reverse order of their construction.  A `leave` with no
live tracer is not a nesting of scopes: the run is `none`. -/
def runScopes (settings : Nat) :
    World × List FuncTracer → List ScopeEvent → Option (World × List FuncTracer)
  | st, [] => some st
  | (w, live), .enter classname funcname addParenthesis :: es =>
    runScopes settings
      ((FuncTracer.new w classname funcname addParenthesis settings).1,
        (FuncTracer.new w classname funcname addParenthesis settings).2 :: live) es
  | (w, t :: live), .leave time_span :: es => runScopes settings (t.destroy w time_span, live) es
  | (_, []), .leave _ :: _ => none

/-- Whether a list of events is a nesting of scopes when `k` tracers are live:
no `leave` comes while no tracer is live. -/
def properlyNested : Nat → List ScopeEvent → Bool
  | _, [] => true
  | k, .enter _ _ _ :: es => properlyNested (k + 1) es
  | 0, .leave _ :: _ => false
  | k + 1, .leave _ :: es => properlyNested k es

/-! ## Auxiliary definitions used to state the results -/

/-- The characters `setColorCode` adds for a colour code. -/
def colorSeq (usingColor : Bool) (colorCode : Nat) : Str :=
  if usingColor then [ESC, '['] ++ decimal colorCode ++ ['m'] else []

/-- The characters the `switch` of the destructor adds for record `L` bound to
configuration `s`. -/
def Logger.switchText (s : LoggerSettings) (L : Logger) : Str :=
  if L.m_type = log_warn then
    colorSeq s.m_printColor 30 ++ colorSeq s.m_printColor 43 ++ "WARNING:".toList ++
      colorSeq s.m_printColor 0 ++ colorSeq s.m_printColor 33 ++ [' ']
  else if L.m_type = log_error then
    colorSeq s.m_printColor 30 ++ colorSeq s.m_printColor 41 ++ "ERROR:".toList ++
      colorSeq s.m_printColor 0 ++ colorSeq s.m_printColor 31 ++ [' ']
  else if L.m_type = log_stack then colorSeq s.m_printColor 36
  else if s.m_mask &&& log_func ≠ 0 then
    List.replicate (s.m_stack.length * s.m_indentWidth) ' '
  else []

/-- The text a record bound to configuration `s` puts on its sink when it
passes the mask: what the `switch` writes, the buffered line, and the colour
reset and newline when `m_endl` holds. -/
def Logger.ownText (s : LoggerSettings) (L : Logger) : Str :=
  L.switchText s ++ L.m_line ++
    (if L.m_endl then colorSeq s.m_printColor 0 ++ ['\n'] else [])

/-- The world after the destructor of `L` has run up to, and without, its call
of `printStack`. -/
def Logger.emit (w : World) (L : Logger) : World :=
  if L.m_type &&& (w.settings L.m_settings).m_mask ≠ 0 then
    { w with
      finalised := w.finalised ++ [L],
      streams := Function.update w.streams (w.settings L.m_settings).m_out
        (w.streams (w.settings L.m_settings).m_out ++ L.ownText (w.settings L.m_settings)) }
  else { w with finalised := w.finalised ++ [L] }

/-- Whether the destructor of `L` reaches its call of `printStack`. -/
def Logger.dumpsStack (w : World) (L : Logger) : Prop :=
  L.m_type &&& (w.settings L.m_settings).m_mask ≠ 0 ∧ L.m_endl = true ∧
    (L.m_type = log_warn ∨ L.m_type = log_error)

instance (w : World) (L : Logger) : Decidable (L.dumpsStack w) := by
  unfold Logger.dumpsStack; infer_instance

/-- The record `Logger() << log_stack << indent(indentLevel) << stackLine` that
`printStack` of configuration `s` makes for an entry. -/
def stackRecord (s : LoggerSettings) (indentLevel : Nat) (stackLine : Str) : Logger :=
  { m_settings := defaultLoggerSettings, m_endl := true, m_type := log_stack,
    m_line := List.replicate (indentLevel * s.m_indentWidth) ' ' ++ stackLine }

/-- The records of a stack dump: the entries in order, the first at indent
level `first`, each next one a level deeper. -/
def stackRecords (s : LoggerSettings) (first : Nat) : List Str → List Logger
  | [] => []
  | stackLine :: rest => stackRecord s first stackLine :: stackRecords s (first + 1) rest

/-- Destroying the records of a list one after the other, none reaching
`printStack`. -/
def emitAll (w : World) (Ls : List Logger) : World :=
  Ls.foldl (fun w L => L.emit w) w

/-- The text the records of a list, all bound to configuration `s`, put on the
sink of `s`, one after the other. -/
def ownTexts (s : LoggerSettings) (Ls : List Logger) : Str :=
  (Ls.map (fun L => if L.m_type &&& s.m_mask ≠ 0 then L.ownText s else [])).flatten

/-- The text a stack dump of configuration `self` puts on the stream `k`. -/
def dumpText (w : World) (self : Nat) (k : Nat) : Str :=
  if k = (w.settings defaultLoggerSettings).m_out then
    ownTexts (w.settings defaultLoggerSettings)
      (stackRecords (w.settings self) 1 (w.settings self).m_stack)
  else []

/-- Whether the text a streamed value adds to a record can hold an escape
character of its own: only text can. -/
def LogValue.escFree : LogValue → Prop
  | .text s => ESC ∉ s
  | _ => True

/-- The level a chain of streamed values leaves on a record, in the words of
the specification: the last `LoggerType` value of the chain, `log_log` when
there is none. -/
def lastLevel (vs : List LogValue) : Nat :=
  ((vs.filterMap (fun v => match v with
    | .type t => some t
    | _ => none)).getLast?).getD log_log

/-- The text `operator<<` appends for a value it formats as text; a
`LoggerType` or `LoggerColor` value has none. -/
def LogValue.plainText : LogValue → Option Str
  | .bool b => some (if b then "true".toList else "false".toList)
  | .text s => some s
  | .int i => some (intText i)
  | _ => none

/-- How an argument value shows in the record of `FuncArg`: a `std::string`
between single quotes, another value as its plain text. -/
def ArgValue.shown : ArgValue → Option Str
  | .string s => some ("'".toList ++ s ++ "'".toList)
  | .other v => v.plainText

/-- The argument-level record `<argname> = <txt>` of a configuration. -/
def argRecord (settings : Nat) (argname txt : Str) : Logger :=
  { m_settings := settings, m_endl := true, m_type := log_arg,
    m_line := argname ++ " = ".toList ++ txt }

/-- The calls `FuncArg(argname, argvalue)` on the default configuration for a
list of pairs, in order. -/
def callAll (w : World) (pairs : List (Str × ArgValue)) : World :=
  pairs.foldl (fun w p => FuncArgCall w p.1 p.2 defaultLoggerSettings) w

/-- The comma-separated segments of a names string. -/
def segments (argnames : Str) : List Str :=
  argnames.splitOn ','

/-- A text without its space characters. -/
def stripSpaces (s : Str) : Str :=
  s.filter (fun c => c ≠ ' ')

/-- A text without its whitespace characters (space, tab, carriage return,
newline), in the words of the specification. -/
def stripWhitespace (s : Str) : Str :=
  s.filter (fun c => !c.isWhitespace)

/-- The loop of `printStack` with the destructor to run on each record passed
as an argument; `none` when that destructor gives `none`. -/
def printStackLoopWith (destroy : World → Logger → Option World) (self : Nat) :
    World → List Str → Nat → Option World
  | w, [], _ => some w
  | w, stackLine :: rest, indentLevel =>
    match destroy w
      ((((Logger.new defaultLoggerSettings).shl w (.type log_stack)).shl w
        (.text ((w.settings self).indent (indentLevel + 1)))).shl w (.text stackLine)) with
    | none => none
    | some w1 => printStackLoopWith destroy self w1 rest (indentLevel + 1)

/-- The destructor `Logger::~Logger` with a bound on the nesting of destructor
runs: `depth` counts the runs that may be open at once (the record's own, then
those of the records `printStack` makes inside it, and so on).  The body is
that of `Logger.destroy`; the result is `none` when the bound is exceeded. -/
def Logger.destroyDepth : Nat → World → Logger → Option World
  | 0, _, _ => none
  | depth + 1, w, L =>
    let w := { w with finalised := w.finalised ++ [L] }
    let out := (w.settings L.m_settings).m_out
    if L.m_type &&& (w.settings L.m_settings).mask ≠ 0 then
      let sw := L.switchType w (w.streams out)
      let w := { w with streams := Function.update w.streams out sw.1 }
      let w := w.write out L.m_line
      if L.m_endl then
        let w := { w with streams := Function.update w.streams out
                            (L.setFGcolor w (w.streams out) color_nocolor) }
        let w := w.write out ['\n']
        if sw.2 = true then
          printStackLoopWith (Logger.destroyDepth depth) L.m_settings w
            (w.settings L.m_settings).m_stack 0
        else some w
      else some w
    else some w

/-! ## Example worlds -/

/-- A process with the default configuration only: every configuration is
`LoggerSettings(mask, showColor)` on stream 0 with call-stack `stack`, and every
stream is empty. -/
def plainWorld (mask : Nat) (showColor : Bool) (stack : List Str) : World :=
  { streams := fun _ => [],
    settings := fun _ => { LoggerSettings.new mask showColor 0 with m_stack := stack },
    finalised := [] }

/-- A process with two configurations: the global default
`LoggerSettings()` (standard mask, colour enabled) on stream 0, and an
alternate `LoggerSettings(log_warn | log_error, false, other)` on stream 1 on
which `beginFunction("foo()")` has run. -/
def twoConfigWorld : World :=
  { streams := fun _ => [],
    settings := fun r =>
      if r = defaultLoggerSettings then LoggerSettings.new log_std true 0
      else (LoggerSettings.new (log_warn ||| log_error) false 1).beginFunction "foo()".toList,
    finalised := [] }

/-! ## Basic facts -/

theorem foldl_space (k : Nat) (str : Str) :
    (List.range k).foldl (fun str _ => str ++ [' ']) str = str ++ List.replicate k ' ' := by
  induction k with
  | zero => simp
  | succ k ih => simp [List.range_succ, List.foldl_append, ih, List.replicate_succ']

theorem LoggerSettings.indent_eq (s : LoggerSettings) (indentLevel : Nat) :
    s.indent indentLevel = List.replicate (indentLevel * s.m_indentWidth) ' ' := by
  unfold LoggerSettings.indent
  induction indentLevel with
  | zero => simp
  | succ n ih =>
    rw [List.range_succ, List.foldl_append, ih]
    simp only [List.foldl_cons, List.foldl_nil, foldl_space, Nat.succ_mul, List.replicate_add]

theorem Logger.setColorCode_eq (w : World) (L : Logger) (out : Str) (c : Nat) :
    L.setColorCode w out c = out ++ colorSeq (w.settings L.m_settings).m_printColor c := by
  unfold Logger.setColorCode colorSeq LoggerSettings.usingColor
  split <;> simp

theorem Logger.setFGcolor_eq (w : World) (L : Logger) (out : Str) (c : Nat) :
    L.setFGcolor w out c = out ++ colorSeq (w.settings L.m_settings).m_printColor c :=
  Logger.setColorCode_eq w L out c

theorem Logger.switchType_fst (w : World) (L : Logger) (out : Str) :
    (L.switchType w out).1 = out ++ L.switchText (w.settings L.m_settings) := by
  unfold Logger.switchType Logger.switchText Logger.printColoredMessageHeader Logger.setBGcolor
  simp only [Logger.setFGcolor_eq, Logger.setColorCode_eq, LoggerSettings.indentDepth,
    LoggerSettings.indent_eq, LoggerSettings.mask]
  have h43 : (color_yellow + 10) % 2 ^ 32 = 43 := by decide
  have h41 : (color_red + 10) % 2 ^ 32 = 41 := by decide
  rw [h43, h41]
  split_ifs <;> simp

theorem Logger.switchType_snd (w : World) (L : Logger) (out : Str) :
    (L.switchType w out).2 = true ↔ (L.m_type = log_warn ∨ L.m_type = log_error) := by
  unfold Logger.switchType
  split_ifs <;> simp_all

/-- The destructor is `emit` followed, when reached, by `printStack`. -/
theorem Logger.destroy_eq (w : World) (L : Logger) :
    L.destroy w =
      if L.dumpsStack w then LoggerSettings.printStack (L.emit w) L.m_settings else L.emit w := by
  rw [Logger.destroy]
  unfold Logger.dumpsStack Logger.emit Logger.ownText World.write
  simp only [Logger.switchType_snd, Logger.switchType_fst, Logger.setFGcolor_eq,
    LoggerSettings.mask]
  by_cases hm : L.m_type &&& (w.settings L.m_settings).m_mask = 0
  · simp [hm]
  · by_cases he : L.m_endl = true
    · by_cases ht : L.m_type = log_warn ∨ L.m_type = log_error
      · simp [hm, he, ht]
      · simp [hm, he, ht]
    · simp [hm, he]

theorem Logger.emit_settings (w : World) (L : Logger) : (L.emit w).settings = w.settings := by
  unfold Logger.emit
  split <;> rfl

theorem Logger.emit_finalised (w : World) (L : Logger) :
    (L.emit w).finalised = w.finalised ++ [L] := by
  unfold Logger.emit
  split <;> rfl

theorem Logger.emit_streams (w : World) (L : Logger) (k : Nat) :
    (L.emit w).streams k =
      if L.m_type &&& (w.settings L.m_settings).m_mask ≠ 0 ∧ k = (w.settings L.m_settings).m_out
      then w.streams k ++ L.ownText (w.settings L.m_settings) else w.streams k := by
  unfold Logger.emit
  by_cases hm : L.m_type &&& (w.settings L.m_settings).m_mask = 0
  · simp [hm]
  · by_cases hk : k = (w.settings L.m_settings).m_out
    · subst hk; simp [hm]
    · simp [hm, hk, Function.update_noteq]

theorem emitAll_nil (w : World) : emitAll w [] = w := rfl

theorem emitAll_cons (w : World) (L : Logger) (Ls : List Logger) :
    emitAll w (L :: Ls) = emitAll (L.emit w) Ls := rfl

theorem emitAll_settings (w : World) (Ls : List Logger) : (emitAll w Ls).settings = w.settings := by
  induction Ls generalizing w with
  | nil => rfl
  | cons L Ls ih => rw [emitAll_cons, ih, Logger.emit_settings]

theorem emitAll_finalised (w : World) (Ls : List Logger) :
    (emitAll w Ls).finalised = w.finalised ++ Ls := by
  induction Ls generalizing w with
  | nil => simp [emitAll_nil]
  | cons L Ls ih => rw [emitAll_cons, ih, Logger.emit_finalised]; simp

theorem emitAll_streams (w : World) (r : Nat) (Ls : List Logger)
    (hr : ∀ L ∈ Ls, L.m_settings = r) (k : Nat) :
    (emitAll w Ls).streams k =
      if k = (w.settings r).m_out then w.streams k ++ ownTexts (w.settings r) Ls
      else w.streams k := by
  induction Ls generalizing w with
  | nil => simp [emitAll_nil, ownTexts]
  | cons L Ls ih =>
    have hL : L.m_settings = r := hr L (List.mem_cons_self _ _)
    rw [emitAll_cons, ih (L.emit w) (fun M hM => hr M (List.mem_cons_of_mem _ hM)),
      Logger.emit_settings, Logger.emit_streams, hL]
    by_cases hk : k = (w.settings r).m_out
    · by_cases hm : L.m_type &&& (w.settings r).m_mask = 0
      · simp [hk, hm, ownTexts]
      · simp [hk, hm, ownTexts]
    · simp [hk]

theorem stackRecord_dumpsStack (w : World) (s : LoggerSettings) (i : Nat) (line : Str) :
    ¬ (stackRecord s i line).dumpsStack w := by
  simp [Logger.dumpsStack, stackRecord]

theorem stackRecords_settings (s : LoggerSettings) (first : Nat) (stack : List Str) :
    ∀ L ∈ stackRecords s first stack, L.m_settings = defaultLoggerSettings := by
  induction stack generalizing first with
  | nil => simp [stackRecords]
  | cons line rest ih =>
    intro L hL
    simp only [stackRecords, List.mem_cons] at hL
    rcases hL with h | h
    · rw [h]; rfl
    · exact ih _ L h

theorem stackRecords_length (s : LoggerSettings) (first : Nat) (stack : List Str) :
    (stackRecords s first stack).length = stack.length := by
  induction stack generalizing first with
  | nil => rfl
  | cons line rest ih => simp [stackRecords, ih]

/-- The loop of `printStack` destroys, in order, the stack records of the
entries still to visit. -/
theorem LoggerSettings.printStackLoop_eq (w : World) (self : Nat) (rest : List Str)
    (indentLevel : Nat) :
    LoggerSettings.printStackLoop w self rest indentLevel =
      emitAll w (stackRecords (w.settings self) (indentLevel + 1) rest) := by
  induction rest generalizing w indentLevel with
  | nil => rw [LoggerSettings.printStackLoop]; rfl
  | cons line rest ih =>
    rw [LoggerSettings.printStackLoop]
    have hrec : ((((Logger.new defaultLoggerSettings).shl w (.type log_stack)).shl w
        (.text ((w.settings self).indent (indentLevel + 1)))).shl w (.text line)) =
        stackRecord (w.settings self) (indentLevel + 1) line := by
      simp [Logger.shl, Logger.new, Logger.newEndl, stackRecord, LoggerSettings.indent_eq]
    simp only [hrec]
    rw [ih, Logger.destroy_eq, if_neg (stackRecord_dumpsStack _ _ _ _), Logger.emit_settings]
    rfl

/-- The stack dump of configuration `self` destroys, in order, one record per
call-stack entry. -/
theorem LoggerSettings.printStack_eq (w : World) (self : Nat) :
    LoggerSettings.printStack w self =
      emitAll w (stackRecords (w.settings self) 1 (w.settings self).m_stack) := by
  rw [LoggerSettings.printStack, LoggerSettings.printStackLoop_eq]

theorem LoggerSettings.printStack_settings (w : World) (self : Nat) :
    (LoggerSettings.printStack w self).settings = w.settings := by
  rw [LoggerSettings.printStack_eq, emitAll_settings]

theorem Logger.destroy_settings (w : World) (L : Logger) : (L.destroy w).settings = w.settings := by
  rw [Logger.destroy_eq]
  split
  · rw [LoggerSettings.printStack_settings, Logger.emit_settings]
  · exact Logger.emit_settings w L

theorem LoggerSettings.printStack_streams (w : World) (self : Nat) (k : Nat) :
    (LoggerSettings.printStack w self).streams k = w.streams k ++ dumpText w self k := by
  rw [LoggerSettings.printStack_eq,
    emitAll_streams w defaultLoggerSettings _ (stackRecords_settings _ _ _) k]
  unfold dumpText
  split <;> simp

theorem dumpText_emit (w : World) (L : Logger) (self : Nat) (k : Nat) :
    dumpText (L.emit w) self k = dumpText w self k := by
  unfold dumpText
  rw [Logger.emit_settings]

/-- Every stream after the destructor: the record's own text on its sink, then
the text of the stack dump when the destructor reaches it. -/
theorem Logger.destroy_streams (w : World) (L : Logger) (k : Nat) :
    (L.destroy w).streams k =
      (L.emit w).streams k ++ (if L.dumpsStack w then dumpText w L.m_settings k else []) := by
  rw [Logger.destroy_eq]
  split
  · rw [LoggerSettings.printStack_streams, dumpText_emit]
  · simp

theorem Logger.ownText_ne_nil (s : LoggerSettings) (L : Logger) (h : L.m_endl = true) :
    L.ownText s ≠ [] := by
  unfold Logger.ownText
  simp [h]

theorem World.setSettings_streams (w : World) (r : Nat) (s : LoggerSettings) :
    (w.setSettings r s).streams = w.streams := rfl

theorem World.setSettings_finalised (w : World) (r : Nat) (s : LoggerSettings) :
    (w.setSettings r s).finalised = w.finalised := rfl

theorem World.setSettings_same (w : World) (r : Nat) (s : LoggerSettings) :
    (w.setSettings r s).settings r = s := by
  simp [World.setSettings]

theorem World.setSettings_other (w : World) (r : Nat) (s : LoggerSettings) (k : Nat)
    (h : k ≠ r) : (w.setSettings r s).settings k = w.settings k := by
  simp [World.setSettings, Function.update_noteq h]

theorem digitChar_ne_ESC (n : Nat) : Nat.digitChar (n % 10) ≠ ESC := by
  have h : ∀ m, m < 10 → Nat.digitChar m ≠ ESC := by decide
  exact h _ (Nat.mod_lt _ (by decide))

theorem toDigitsCore_no_ESC (fuel n : Nat) (ds : List Char) (h : ESC ∉ ds) :
    ESC ∉ Nat.toDigitsCore 10 fuel n ds := by
  induction fuel generalizing n ds with
  | zero => simpa [Nat.toDigitsCore] using h
  | succ fuel ih =>
    have hd : ESC ∉ Nat.digitChar (n % 10) :: ds := by
      simp only [List.mem_cons, not_or]
      exact ⟨fun e => digitChar_ne_ESC _ e.symm, h⟩
    simp only [Nat.toDigitsCore]
    split_ifs
    · exact hd
    · exact ih _ _ hd

theorem decimal_no_ESC (n : Nat) : ESC ∉ decimal n := by
  unfold decimal Nat.toDigits
  exact toDigitsCore_no_ESC _ _ _ (List.not_mem_nil _)

theorem intText_no_ESC (i : Int) : ESC ∉ intText i := by
  cases i with
  | ofNat n => exact decimal_no_ESC n
  | negSucc n =>
    simp only [intText, List.mem_cons, not_or]
    exact ⟨by decide, decimal_no_ESC _⟩

theorem Logger.shl_settings (w : World) (L : Logger) (v : LogValue) :
    (L.shl w v).m_settings = L.m_settings := by
  cases v <;> rfl

theorem Logger.shl_endl (w : World) (L : Logger) (v : LogValue) :
    (L.shl w v).m_endl = L.m_endl := by
  cases v <;> rfl

theorem Logger.shlAll_settings (w : World) (L : Logger) (vs : List LogValue) :
    (L.shlAll w vs).m_settings = L.m_settings := by
  induction vs generalizing L with
  | nil => rfl
  | cons v vs ih =>
    show ((L.shl w v).shlAll w vs).m_settings = _
    rw [ih, Logger.shl_settings]

theorem Logger.shlAll_endl (w : World) (L : Logger) (vs : List LogValue) :
    (L.shlAll w vs).m_endl = L.m_endl := by
  induction vs generalizing L with
  | nil => rfl
  | cons v vs ih =>
    show ((L.shl w v).shlAll w vs).m_endl = _
    rw [ih, Logger.shl_endl]

theorem Logger.shl_no_ESC (w : World) (L : Logger) (v : LogValue)
    (hcolor : (w.settings L.m_settings).m_printColor = false) (hv : v.escFree)
    (hL : ESC ∉ L.m_line) : ESC ∉ (L.shl w v).m_line := by
  cases v with
  | type t => exact hL
  | color c => simpa [Logger.shl, Logger.setFGcolor_eq, colorSeq, hcolor] using hL
  | bool b =>
    cases b
    · simp only [Logger.shl, List.mem_append, not_or]; exact ⟨hL, by decide⟩
    · simp only [Logger.shl, List.mem_append, not_or]; exact ⟨hL, by decide⟩
  | text s => simp only [Logger.shl, List.mem_append, not_or]; exact ⟨hL, hv⟩
  | int i => simp only [Logger.shl, List.mem_append, not_or]; exact ⟨hL, intText_no_ESC i⟩

theorem Logger.shlAll_no_ESC (w : World) (L : Logger) (vs : List LogValue)
    (hcolor : (w.settings L.m_settings).m_printColor = false) (hvs : ∀ v ∈ vs, v.escFree)
    (hL : ESC ∉ L.m_line) : ESC ∉ (L.shlAll w vs).m_line := by
  induction vs generalizing L with
  | nil => exact hL
  | cons v vs ih =>
    show ESC ∉ ((L.shl w v).shlAll w vs).m_line
    apply ih
    · rw [Logger.shl_settings]; exact hcolor
    · exact fun u hu => hvs u (List.mem_cons_of_mem _ hu)
    · exact Logger.shl_no_ESC w L v hcolor (hvs v (List.mem_cons_self _ _)) hL

theorem Logger.ownText_no_ESC (s : LoggerSettings) (L : Logger)
    (hcolor : s.m_printColor = false) (hL : ESC ∉ L.m_line) : ESC ∉ L.ownText s := by
  have hsp : ∀ n, ESC ∉ List.replicate n ' ' := by
    intro n h
    exact absurd (List.eq_of_mem_replicate h) (by decide)
  have hcs : ∀ c, colorSeq s.m_printColor c = [] := by
    intro c
    simp [colorSeq, hcolor]
  have hsw : ESC ∉ L.switchText s := by
    unfold Logger.switchText
    simp only [hcs]
    split_ifs
    · decide
    · decide
    · decide
    · exact hsp _
    · decide
  unfold Logger.ownText
  simp only [hcs, List.mem_append, not_or]
  refine ⟨⟨hsw, hL⟩, ?_⟩
  split <;> decide

theorem ownTexts_no_ESC (s : LoggerSettings) (Ls : List Logger)
    (hcolor : s.m_printColor = false) (hLs : ∀ L ∈ Ls, ESC ∉ L.m_line) :
    ESC ∉ ownTexts s Ls := by
  induction Ls with
  | nil => simp [ownTexts]
  | cons L Ls ih =>
    have h1 : ESC ∉ ownTexts s Ls := ih (fun M hM => hLs M (List.mem_cons_of_mem _ hM))
    have h2 := Logger.ownText_no_ESC s L hcolor (hLs L (List.mem_cons_self _ _))
    unfold ownTexts at h1 ⊢
    simp only [List.map_cons, List.flatten_cons, List.mem_append, not_or]
    refine ⟨?_, h1⟩
    split
    · exact h2
    · exact List.not_mem_nil _

theorem stackRecords_no_ESC (s : LoggerSettings) (first : Nat) (stack : List Str)
    (hstack : ∀ line ∈ stack, ESC ∉ line) :
    ∀ L ∈ stackRecords s first stack, ESC ∉ L.m_line := by
  induction stack generalizing first with
  | nil => simp [stackRecords]
  | cons line rest ih =>
    intro L hL
    simp only [stackRecords, List.mem_cons] at hL
    rcases hL with h | h
    · rw [h]
      simp only [stackRecord, List.mem_append, not_or]
      refine ⟨fun hm => absurd (List.eq_of_mem_replicate hm) (by decide), ?_⟩
      exact hstack line (List.mem_cons_self _ _)
    · exact ih _ (fun l hl => hstack l (List.mem_cons_of_mem _ hl)) L h

/-- Writing on the sink in one go what `emit` adds. -/
theorem Logger.emit_eq_write (w : World) (L : Logger) :
    L.emit w = World.write { w with finalised := w.finalised ++ [L] }
      (w.settings L.m_settings).m_out
      (if L.m_type &&& (w.settings L.m_settings).m_mask ≠ 0
        then L.ownText (w.settings L.m_settings) else []) := by
  unfold Logger.emit World.write
  split <;> simp

/-! ## C1: the mask gate -/

/-- C1: a record whose level has no bit in common with the mask of its
configuration leaves every stream as it was; a record made by the public
constructor (`m_endl` true) changes the content of its sink if and only if its
level has a bit in common with the mask.  Levels and masks are arbitrary
`unsigned int` values, the 64 x 64 combinations of the six level bits among them. -/
theorem Logger.destroy_writes_iff (w : World) (L : Logger) :
    (L.m_type &&& (w.settings L.m_settings).m_mask = 0 → (L.destroy w).streams = w.streams) ∧
    (L.m_endl = true →
      ((L.destroy w).streams (w.settings L.m_settings).m_out ≠
          w.streams (w.settings L.m_settings).m_out ↔
        L.m_type &&& (w.settings L.m_settings).m_mask ≠ 0)) := by
  have h0 : L.m_type &&& (w.settings L.m_settings).m_mask = 0 →
      (L.destroy w).streams = w.streams := by
    intro hm
    funext k
    rw [Logger.destroy_streams, Logger.emit_streams]
    simp [Logger.dumpsStack, hm]
  refine ⟨h0, fun hendl => ⟨fun hne hm => hne (by rw [h0 hm]), fun hm => ?_⟩⟩
  rw [Logger.destroy_streams, Logger.emit_streams]
  intro heq
  have hlen := congrArg List.length heq
  have hown := Logger.ownText_ne_nil (w.settings L.m_settings) L hendl
  have hpos : 0 < (L.ownText (w.settings L.m_settings)).length := List.length_pos.mpr hown
  rw [if_pos ⟨hm, rfl⟩] at hlen
  simp only [List.length_append] at hlen
  omega

/-- Witness of C1 on the default configuration with the standard mask: an
info record leaves the streams alone, a warning record changes its sink. -/
theorem Logger.destroy_writes_iff_witness :
    ((Logger.new 0).destroy (plainWorld log_std false [])).streams =
        (plainWorld log_std false []).streams ∧
      (((Logger.new 0).shl (plainWorld log_std false []) (.type log_warn)).destroy
          (plainWorld log_std false [])).streams 0 ≠ (plainWorld log_std false []).streams 0 :=
  ⟨(Logger.destroy_writes_iff (plainWorld log_std false []) (Logger.new 0)).1 (by decide),
    ((Logger.destroy_writes_iff (plainWorld log_std false [])
      ((Logger.new 0).shl (plainWorld log_std false []) (.type log_warn))).2 rfl).2 (by decide)⟩

/-! ## C2: the end-to-end scenario -/

/-- C2: on the default configuration with the standard mask, colour disabled,
indent width 2 and an empty call-stack, `FuncTracer("foo")` writes nothing to
any stream and leaves the single frame `foo()` on the call-stack; destroying
`Logger() << log_warn << "disk full"` next appends exactly the two lines
`WARNING: disk full` and `  foo()` to the sink and nothing to any other stream. -/
theorem endToEnd_standard (w : World)
    (hmask : (w.settings defaultLoggerSettings).m_mask = log_std)
    (hcolor : (w.settings defaultLoggerSettings).m_printColor = false)
    (hwidth : (w.settings defaultLoggerSettings).m_indentWidth = 2)
    (hstack : (w.settings defaultLoggerSettings).m_stack = []) :
    (FuncTracer.newFunc w "foo".toList true defaultLoggerSettings).1.streams = w.streams ∧
    ((FuncTracer.newFunc w "foo".toList true defaultLoggerSettings).1.settings
        defaultLoggerSettings).m_stack = ["foo()".toList] ∧
    ∀ k, ((((Logger.new defaultLoggerSettings).shl
          (FuncTracer.newFunc w "foo".toList true defaultLoggerSettings).1
          (.type log_warn)).shl
          (FuncTracer.newFunc w "foo".toList true defaultLoggerSettings).1
          (.text "disk full".toList)).destroy
          (FuncTracer.newFunc w "foo".toList true defaultLoggerSettings).1).streams k =
      if k = (w.settings defaultLoggerSettings).m_out then
        w.streams k ++ "WARNING: disk full\n  foo()\n".toList
      else w.streams k := by
  have hs1 : (FuncTracer.newFunc w "foo".toList true defaultLoggerSettings).1.streams =
      w.streams := by
    funext k
    simp [FuncTracer.newFunc, FuncTracer.new, World.setSettings_streams, Logger.destroy_streams,
      Logger.emit_streams, Logger.dumpsStack, Logger.shl, Logger.new, Logger.newEndl, hmask]
  have hset : (FuncTracer.newFunc w "foo".toList true defaultLoggerSettings).1.settings
      defaultLoggerSettings =
      { w.settings defaultLoggerSettings with m_stack := ["foo()".toList] } := by
    simp [FuncTracer.newFunc, FuncTracer.new, World.setSettings_same, Logger.destroy_settings,
      LoggerSettings.beginFunction, hstack]
  refine ⟨hs1, by rw [hset], fun k => ?_⟩
  rw [Logger.destroy_streams, Logger.emit_streams, hs1]
  simp only [Logger.dumpsStack, dumpText, Logger.shl, Logger.new, Logger.newEndl, hset, hmask,
    hcolor, hwidth, Logger.ownText, Logger.switchText, ownTexts, stackRecords, stackRecord,
    colorSeq]
  by_cases hk : k = (w.settings defaultLoggerSettings).m_out
  · simp [hk]
  · simp [hk]

/-- Witness of C2 on a process whose default configuration is
`LoggerSettings(log_std, false)`. -/
theorem endToEnd_standard_witness :
    (FuncTracer.newFunc (plainWorld log_std false []) "foo".toList true 0).1.streams =
        (plainWorld log_std false []).streams ∧
      ((((Logger.new 0).shl (FuncTracer.newFunc (plainWorld log_std false []) "foo".toList true 0).1
          (.type log_warn)).shl
          (FuncTracer.newFunc (plainWorld log_std false []) "foo".toList true 0).1
          (.text "disk full".toList)).destroy
          (FuncTracer.newFunc (plainWorld log_std false []) "foo".toList true 0).1).streams 0 =
        "WARNING: disk full\n  foo()\n".toList :=
  ⟨(endToEnd_standard (plainWorld log_std false []) rfl rfl rfl rfl).1,
    (endToEnd_standard (plainWorld log_std false []) rfl rfl rfl rfl).2.2 0⟩

/-! ## C3: which configuration a stack dump goes through -/

/-- C3 (the code at the failing input): the alternate configuration 1 has the
stack-frame bit off, colour disabled and its own sink, stream 1.  Its
`printStack()` leaves stream 1 empty and puts a cyan-coloured frame on stream
0, the sink of the default configuration; destroying a warning record bound to
configuration 1 puts the warning on stream 1 and the same frame on stream 0. -/
theorem printStack_alternate_goes_to_default :
    (LoggerSettings.printStack twoConfigWorld 1).streams 1 = [] ∧
    (LoggerSettings.printStack twoConfigWorld 1).streams 0 = "\x1b[36m  foo()\x1b[0m\n".toList ∧
    ((((Logger.new 1).shl twoConfigWorld (.type log_warn)).shl twoConfigWorld
        (.text "x".toList)).destroy twoConfigWorld).streams 1 = "WARNING: x\n".toList ∧
    ((((Logger.new 1).shl twoConfigWorld (.type log_warn)).shl twoConfigWorld
        (.text "x".toList)).destroy twoConfigWorld).streams 0 =
      "\x1b[36m  foo()\x1b[0m\n".toList := by
  refine ⟨?_, ?_, ?_, ?_⟩
  · rw [LoggerSettings.printStack_streams]; decide
  · rw [LoggerSettings.printStack_streams]; decide
  · rw [Logger.destroy_streams, Logger.emit_streams]; decide
  · rw [Logger.destroy_streams, Logger.emit_streams]; decide

/-! ## C4: the records of a stack dump -/

theorem stackRecords_eq_map (s : LoggerSettings) (first : Nat) (stack : List Str) :
    stackRecords s first stack =
      (stack.enumFrom first).map (fun p =>
        { m_settings := defaultLoggerSettings, m_endl := true, m_type := log_stack,
          m_line := List.replicate (p.1 * s.m_indentWidth) ' ' ++ p.2 }) := by
  induction stack generalizing first with
  | nil => rfl
  | cons line rest ih => simp [stackRecords, stackRecord, List.enumFrom, ih]

/-- C4: `printStack()` of a configuration with call-stack `[f1, ..., fn]`
destroys exactly `n` records, in the order of the stack; the `i`-th (from 1) has
level `log_stack` and buffered text `i * m_indentWidth` spaces followed by `fi`.
With an empty call-stack it destroys none. -/
theorem LoggerSettings.printStack_records (w : World) (self : Nat) :
    (LoggerSettings.printStack w self).finalised =
        w.finalised ++ ((w.settings self).m_stack.enumFrom 1).map (fun p =>
          { m_settings := defaultLoggerSettings, m_endl := true, m_type := log_stack,
            m_line := List.replicate (p.1 * (w.settings self).m_indentWidth) ' ' ++ p.2 }) ∧
      (LoggerSettings.printStack w self).finalised.length =
        w.finalised.length + (w.settings self).m_stack.length ∧
      ((w.settings self).m_stack = [] → LoggerSettings.printStack w self = w) := by
  refine ⟨?_, ?_, ?_⟩
  · rw [LoggerSettings.printStack_eq, emitAll_finalised, stackRecords_eq_map]
  · rw [LoggerSettings.printStack_eq, emitAll_finalised, List.length_append,
      stackRecords_length]
  · intro h
    rw [LoggerSettings.printStack_eq, h]
    rfl

/-- Witness of C4: two records for a call-stack of two entries, and no change
for an empty one. -/
theorem LoggerSettings.printStack_records_witness :
    (LoggerSettings.printStack (plainWorld log_all false ["f".toList, "g".toList]) 0).finalised =
        [{ m_settings := 0, m_endl := true, m_type := log_stack, m_line := "  f".toList },
         { m_settings := 0, m_endl := true, m_type := log_stack, m_line := "    g".toList }] ∧
      LoggerSettings.printStack (plainWorld log_all false []) 0 = plainWorld log_all false [] :=
  ⟨(LoggerSettings.printStack_records (plainWorld log_all false ["f".toList, "g".toList]) 0).1,
    (LoggerSettings.printStack_records (plainWorld log_all false []) 0).2.2 rfl⟩

/-! ## C5: indentation of info, function-trace and argument records -/

/-- C5: a record of level `log_log`, `log_func` or `log_arg` that passes the
mask appends to its sink: `depth * m_indentWidth` spaces when the mask has the
`log_func` bit and nothing otherwise, then at once its buffered line, then (when
`m_endl` holds) the colour reset, if colour is on, and the newline.  No other
stream changes. -/
theorem Logger.destroy_indentation (w : World) (L : Logger)
    (hlevel : L.m_type = log_log ∨ L.m_type = log_func ∨ L.m_type = log_arg)
    (hpass : L.m_type &&& (w.settings L.m_settings).m_mask ≠ 0) (k : Nat) :
    (L.destroy w).streams k =
      if k = (w.settings L.m_settings).m_out then
        w.streams k ++
          (if (w.settings L.m_settings).m_mask &&& log_func ≠ 0 then
            List.replicate ((w.settings L.m_settings).m_stack.length *
              (w.settings L.m_settings).m_indentWidth) ' '
          else []) ++
          L.m_line ++
          (if L.m_endl then
            (if (w.settings L.m_settings).m_printColor then "\x1b[0m".toList else []) ++ ['\n']
          else [])
      else w.streams k := by
  have hw : L.m_type ≠ log_warn := by rcases hlevel with h | h | h <;> rw [h] <;> decide
  have he : L.m_type ≠ log_error := by rcases hlevel with h | h | h <;> rw [h] <;> decide
  have hs : L.m_type ≠ log_stack := by rcases hlevel with h | h | h <;> rw [h] <;> decide
  have hreset : ∀ b : Bool, colorSeq b 0 = if b then "\x1b[0m".toList else [] := by
    intro b; cases b <;> rfl
  rw [Logger.destroy_streams, Logger.emit_streams]
  have hd : ¬ L.dumpsStack w := by
    simp [Logger.dumpsStack, hw, he]
  rw [if_neg hd, List.append_nil]
  by_cases hk : k = (w.settings L.m_settings).m_out
  · rw [if_pos ⟨hpass, hk⟩, if_pos hk]
    simp only [Logger.ownText, Logger.switchText, if_neg hw, if_neg he, if_neg hs, hreset,
      List.append_assoc]
  · rw [if_neg (fun h => hk h.2), if_neg hk]

/-- Witness of C5: an info record at depth 2 with the function-trace bit set
gets four spaces. -/
theorem Logger.destroy_indentation_witness :
    (((Logger.new 0).shl (plainWorld log_all false ["f".toList, "g".toList])
        (.text "m".toList)).destroy
        (plainWorld log_all false ["f".toList, "g".toList])).streams 0 = "    m\n".toList :=
  Logger.destroy_indentation (plainWorld log_all false ["f".toList, "g".toList])
    ((Logger.new 0).shl (plainWorld log_all false ["f".toList, "g".toList]) (.text "m".toList))
    (Or.inl rfl) (by decide) 0

/-! ## C6: no escape sequence with colour disabled -/

theorem Logger.shlIn_settings (steps : List (World × LogValue)) :
    ∀ L : Logger, (L.shlIn steps).m_settings = L.m_settings := by
  induction steps with
  | nil => intro L; rfl
  | cons p ps ih =>
    intro L
    show ((L.shl p.1 p.2).shlIn ps).m_settings = _
    rw [ih, Logger.shl_settings]

theorem Logger.shlIn_no_ESC (steps : List (World × LogValue)) :
    ∀ L : Logger,
      (∀ p ∈ steps, (p.1.settings L.m_settings).m_printColor = false ∧ p.2.escFree) →
      ESC ∉ L.m_line → ESC ∉ (L.shlIn steps).m_line := by
  induction steps with
  | nil => intro L _ hL; exact hL
  | cons p ps ih =>
    intro L hsteps hL
    show ESC ∉ ((L.shl p.1 p.2).shlIn ps).m_line
    have hp := hsteps p (List.mem_cons_self _ _)
    apply ih
    · intro q hq
      rw [Logger.shl_settings]
      exact hsteps q (List.mem_cons_of_mem _ hq)
    · exact Logger.shl_no_ESC p.1 L p.2 hp.1 hp.2 hL

/-- C6 (the claim at a colour streamed in before colour is switched off): on
the default configuration with every level enabled and colour on, stream
`color_red` and `x` into a record, call `toggleColor()`, then destroy the
record.  Its configuration has colour disabled at that moment, and the sink
receives `ESC[31mx` and a newline: the escape sequence was put in the buffer
when the colour was streamed in. -/
theorem Logger.destroy_keeps_streamed_colour :
    (((plainWorld log_all true []).setSettings 0
        ((plainWorld log_all true []).settings 0).toggleColor).settings 0).m_printColor = false ∧
      (Logger.destroy
        ((plainWorld log_all true []).setSettings 0
          ((plainWorld log_all true []).settings 0).toggleColor)
        (((Logger.new 0).shl (plainWorld log_all true []) (.color color_red)).shl
          (plainWorld log_all true []) (.text "x".toList))).streams 0 =
        "\x1b[31mx\n".toList ∧
      ESC ∈ "\x1b[31mx\n".toList ∧ ESC ∉ "x".toList := by
  refine ⟨rfl, ?_, by decide, by decide⟩
  rw [Logger.destroy_streams, Logger.emit_streams]
  decide

/-- C6 (amended): take a record made by either constructor whose configuration
has colour disabled each time a value is streamed in and when the record is
destroyed; the values are levels, colours, booleans, integers and text free of
the escape character, and the process may change otherwise between the
appends.  The destructor writes on the sink one text `own` that holds no escape
character and then, for a warning or error record only, calls `printStack`.
When `printStack` is not reached, everything the destructor adds to any stream
is free of the escape character; so it is when the record is bound to the
default configuration and the call-stack entries are free of it. -/
theorem Logger.destroy_no_escape (w : World) (settings : Nat) (endl : Bool)
    (steps : List (World × LogValue)) (L : Logger)
    (hL : L = (Logger.newEndl endl settings).shlIn steps)
    (hsteps : ∀ p ∈ steps, (p.1.settings settings).m_printColor = false ∧ p.2.escFree)
    (hcolor : (w.settings settings).m_printColor = false) :
    (∃ own : Str, ESC ∉ own ∧
      L.destroy w =
        if L.dumpsStack w then
          LoggerSettings.printStack
            (World.write { w with finalised := w.finalised ++ [L] }
              (w.settings settings).m_out own) settings
        else World.write { w with finalised := w.finalised ++ [L] }
          (w.settings settings).m_out own) ∧
    (¬ L.dumpsStack w →
      ∀ k, ∃ t : Str, ESC ∉ t ∧ (L.destroy w).streams k = w.streams k ++ t) ∧
    (settings = defaultLoggerSettings →
      (∀ line ∈ (w.settings settings).m_stack, ESC ∉ line) →
      ∀ k, ∃ t : Str, ESC ∉ t ∧ (L.destroy w).streams k = w.streams k ++ t) := by
  have hset : L.m_settings = settings := by
    rw [hL, Logger.shlIn_settings]; rfl
  have hline : ESC ∉ L.m_line := by
    rw [hL]
    exact Logger.shlIn_no_ESC steps _ hsteps (List.not_mem_nil _)
  have hown : ESC ∉ L.ownText (w.settings settings) :=
    Logger.ownText_no_ESC _ L hcolor hline
  have hown2 : ESC ∉ (if L.m_type &&& (w.settings settings).m_mask ≠ 0
      then L.ownText (w.settings settings) else []) := by
    split
    · exact hown
    · exact List.not_mem_nil _
  have hemit : ∀ k, ∃ t : Str, ESC ∉ t ∧ (L.emit w).streams k = w.streams k ++ t := by
    intro k
    rw [Logger.emit_streams, hset]
    split
    · exact ⟨_, hown, rfl⟩
    · exact ⟨[], List.not_mem_nil _, (List.append_nil _).symm⟩
  refine ⟨⟨_, hown2, ?_⟩, fun hnd k => ?_, fun hdef hstack k => ?_⟩
  · rw [Logger.destroy_eq, Logger.emit_eq_write, hset]
  · rw [Logger.destroy_streams, if_neg hnd, List.append_nil]
    exact hemit k
  · obtain ⟨t, ht, hk⟩ := hemit k
    have hdump : ESC ∉ dumpText w settings k := by
      unfold dumpText
      split
      · refine ownTexts_no_ESC _ _ ?_ (stackRecords_no_ESC _ _ _ hstack)
        rw [← hdef]; exact hcolor
      · exact List.not_mem_nil _
    rw [Logger.destroy_streams, hk, hset]
    by_cases h2 : L.dumpsStack w
    · refine ⟨t ++ dumpText w settings k, ?_, ?_⟩
      · simp only [List.mem_append, not_or]; exact ⟨ht, hdump⟩
      · rw [if_pos h2, List.append_assoc]
    · exact ⟨t, ht, by rw [if_neg h2, List.append_nil]⟩

/-- Witness of C6: a warning record with a colour, a boolean and plain text,
on the default configuration with colour disabled and one frame on the
call-stack. -/
theorem Logger.destroy_no_escape_witness :
    ∃ t : Str, ESC ∉ t ∧
      (((Logger.newEndl true 0).shlIn
          [(plainWorld log_std false ["foo()".toList], .type log_warn),
            (plainWorld log_std false ["foo()".toList], .color color_red),
            (plainWorld log_std false ["foo()".toList], .bool true),
            (plainWorld log_std false ["foo()".toList], .text "x".toList)]).destroy
          (plainWorld log_std false ["foo()".toList])).streams 0 =
        (plainWorld log_std false ["foo()".toList]).streams 0 ++ t :=
  (Logger.destroy_no_escape (plainWorld log_std false ["foo()".toList]) 0 true
    [(plainWorld log_std false ["foo()".toList], .type log_warn),
      (plainWorld log_std false ["foo()".toList], .color color_red),
      (plainWorld log_std false ["foo()".toList], .bool true),
      (plainWorld log_std false ["foo()".toList], .text "x".toList)] _ rfl
    (by
      intro p hp
      simp only [List.mem_cons, List.mem_singleton, List.not_mem_nil, or_false] at hp
      rcases hp with h | h | h | h <;> rw [h]
      · exact ⟨rfl, trivial⟩
      · exact ⟨rfl, trivial⟩
      · exact ⟨rfl, trivial⟩
      · exact ⟨rfl, by show ESC ∉ "x".toList; decide⟩)
    rfl).2.2 rfl
    (by
      intro line hline
      simp only [plainWorld, List.mem_singleton] at hline
      rw [hline]
      decide) 0

/-! ## C7: coloured warning and error headers -/

/-- C7: with colour enabled, a warning record made by the public constructor
that passes the mask writes on its sink exactly
`ESC[30m ESC[43m WARNING: ESC[0m ESC[33m`, a space, its buffered line, `ESC[0m`
and a newline, and then calls `printStack`; an error record does the same with
41, 31 and `ERROR:`.  The line has no indentation, whatever the call-stack and
the other bits of the mask. -/
theorem Logger.destroy_colored_header (w : World) (L : Logger)
    (hendl : L.m_endl = true)
    (hcolor : (w.settings L.m_settings).m_printColor = true)
    (hpass : L.m_type &&& (w.settings L.m_settings).m_mask ≠ 0) :
    (L.m_type = log_warn →
      L.destroy w = LoggerSettings.printStack
        (World.write { w with finalised := w.finalised ++ [L] } (w.settings L.m_settings).m_out
          ("\x1b[30m\x1b[43mWARNING:\x1b[0m\x1b[33m ".toList ++ L.m_line ++ "\x1b[0m\n".toList))
        L.m_settings) ∧
    (L.m_type = log_error →
      L.destroy w = LoggerSettings.printStack
        (World.write { w with finalised := w.finalised ++ [L] } (w.settings L.m_settings).m_out
          ("\x1b[30m\x1b[41mERROR:\x1b[0m\x1b[31m ".toList ++ L.m_line ++ "\x1b[0m\n".toList))
        L.m_settings) := by
  constructor
  · intro ht
    have hd : L.dumpsStack w := ⟨hpass, hendl, Or.inl ht⟩
    have hown : L.ownText (w.settings L.m_settings) =
        "\x1b[30m\x1b[43mWARNING:\x1b[0m\x1b[33m ".toList ++ L.m_line ++ "\x1b[0m\n".toList := by
      simp only [Logger.ownText, Logger.switchText, if_pos ht, hcolor, hendl, if_true]
      rfl
    rw [Logger.destroy_eq, if_pos hd, Logger.emit_eq_write, if_pos hpass, hown]
  · intro ht
    have hd : L.dumpsStack w := ⟨hpass, hendl, Or.inr ht⟩
    have hnw : L.m_type ≠ log_warn := by rw [ht]; decide
    have hown : L.ownText (w.settings L.m_settings) =
        "\x1b[30m\x1b[41mERROR:\x1b[0m\x1b[31m ".toList ++ L.m_line ++ "\x1b[0m\n".toList := by
      simp only [Logger.ownText, Logger.switchText, if_neg hnw, if_pos ht, hcolor, hendl, if_true]
      rfl
    rw [Logger.destroy_eq, if_pos hd, Logger.emit_eq_write, if_pos hpass, hown]

/-- Witness of C7: `Logger() << log_warn << "m"` on the default
`LoggerSettings()`, whose colour is enabled. -/
theorem Logger.destroy_colored_header_witness :
    (((Logger.new 0).shl (plainWorld log_std true []) (.type log_warn)).shl
        (plainWorld log_std true []) (.text "m".toList)).destroy (plainWorld log_std true []) =
      LoggerSettings.printStack
        (World.write
          { plainWorld log_std true [] with
            finalised := [((Logger.new 0).shl (plainWorld log_std true []) (.type log_warn)).shl
              (plainWorld log_std true []) (.text "m".toList)] } 0
          "\x1b[30m\x1b[43mWARNING:\x1b[0m\x1b[33m m\x1b[0m\n".toList) 0 :=
  (Logger.destroy_colored_header (plainWorld log_std true [])
    (((Logger.new 0).shl (plainWorld log_std true []) (.type log_warn)).shl
      (plainWorld log_std true []) (.text "m".toList)) rfl rfl (by decide)).1 rfl

/-! ## C8: stack balance -/

theorem Logger.destroy_finalised (w : World) (L : Logger) :
    (L.destroy w).finalised = w.finalised ++ [L] ++
      (if L.dumpsStack w then
        stackRecords (w.settings L.m_settings) 1 (w.settings L.m_settings).m_stack
      else []) := by
  rw [Logger.destroy_eq]
  split
  · rw [LoggerSettings.printStack_eq, emitAll_finalised, Logger.emit_finalised,
      Logger.emit_settings]
  · rw [Logger.emit_finalised, List.append_nil]

theorem FuncTracer.new_tracer (w : World) (classname funcname : Str) (addParenthesis : Bool)
    (settings : Nat) :
    (FuncTracer.new w classname funcname addParenthesis settings).2 =
      { m_addParenthesis := addParenthesis, m_settings := settings,
        m_name := (if classname ≠ [] then classname ++ "::".toList else []) ++ funcname ++
          (if addParenthesis then "()".toList else []) } := rfl

theorem FuncTracer.new_settings (w : World) (classname funcname : Str) (addParenthesis : Bool)
    (settings : Nat) :
    (FuncTracer.new w classname funcname addParenthesis settings).1.settings settings =
      (w.settings settings).beginFunction
        (FuncTracer.new w classname funcname addParenthesis settings).2.m_name := by
  simp [FuncTracer.new, World.setSettings_same, Logger.destroy_settings]

theorem FuncTracer.destroy_pops (w : World) (t : FuncTracer) (time_span : Str) :
    (t.destroy w time_span).settings t.m_settings = (w.settings t.m_settings).endFunction := by
  simp [FuncTracer.destroy, World.setSettings_same, Logger.destroy_settings]

theorem LoggerSettings.endFunction_stack (s : LoggerSettings) :
    s.endFunction.m_stack = s.m_stack.dropLast := by
  unfold LoggerSettings.endFunction
  split
  · rename_i h
    rw [List.isEmpty_iff] at h
    rw [h]; rfl
  · rfl

theorem runScopes_invariant (settings : Nat) (base : List Str) (es : List ScopeEvent) :
    ∀ (w : World) (live : List FuncTracer) (w' : World) (live' : List FuncTracer),
      (∀ t ∈ live, t.m_settings = settings) →
      (w.settings settings).m_stack = base ++ live.reverse.map FuncTracer.m_name →
      runScopes settings (w, live) es = some (w', live') →
      (w'.settings settings).m_stack = base ++ live'.reverse.map FuncTracer.m_name := by
  induction es with
  | nil =>
    intro w live w' live' _ hst hrun
    simp only [runScopes, Option.some.injEq, Prod.mk.injEq] at hrun
    rw [← hrun.1, ← hrun.2]; exact hst
  | cons e es ih =>
    intro w live w' live' hall hst hrun
    cases e with
    | enter c f p =>
      simp only [runScopes] at hrun
      refine ih _ _ w' live' ?_ ?_ hrun
      · intro t ht
        simp only [List.mem_cons] at ht
        rcases ht with h | h
        · rw [h]; rfl
        · exact hall t h
      · rw [FuncTracer.new_settings]
        simp [LoggerSettings.beginFunction, hst]
    | leave ts =>
      cases live with
      | nil => simp [runScopes] at hrun
      | cons t live =>
        simp only [runScopes] at hrun
        have ht : t.m_settings = settings := hall t (List.mem_cons_self _ _)
        refine ih _ _ w' live' (fun u hu => hall u (List.mem_cons_of_mem _ hu)) ?_ hrun
        rw [← ht, FuncTracer.destroy_pops, LoggerSettings.endFunction_stack, ht, hst]
        simp [← List.append_assoc]

theorem runScopes_defined (settings : Nat) (es : List ScopeEvent) :
    ∀ (w : World) (live : List FuncTracer), properlyNested live.length es = true →
      ∃ w' live', runScopes settings (w, live) es = some (w', live') := by
  induction es with
  | nil => intro w live _; exact ⟨w, live, by simp [runScopes]⟩
  | cons e es ih =>
    intro w live hn
    cases e with
    | enter c f p =>
      simp only [runScopes]
      exact ih _ _ (by simpa [properlyNested] using hn)
    | leave ts =>
      cases live with
      | nil => simp [properlyNested] at hn
      | cons t live =>
        simp only [runScopes]
        exact ih _ _ (by simpa [properlyNested] using hn)

/-- C8: every nesting of `FuncTracer` constructions and destructions on a
configuration runs to completion from any state of the process (any mask,
colour, call-stack), and at its end the call-stack is the initial one followed
by the names of the tracers still live, outermost first: its depth is the
initial depth plus the number of live tracers, and once no tracer is live it is
the initial call-stack again.  Every prefix of a nesting is a nesting, so this
holds at every point of the run. -/
theorem runScopes_stack_balance (settings : Nat) (w : World) (es : List ScopeEvent)
    (hnest : properlyNested 0 es = true) :
    ∃ (w' : World) (live : List FuncTracer),
      runScopes settings (w, []) es = some (w', live) ∧
      (w'.settings settings).m_stack =
        (w.settings settings).m_stack ++ live.reverse.map FuncTracer.m_name ∧
      (w'.settings settings).m_stack.length = (w.settings settings).m_stack.length + live.length ∧
      (live = [] → (w'.settings settings).m_stack = (w.settings settings).m_stack) := by
  obtain ⟨w', live, hrun⟩ := runScopes_defined settings es w [] hnest
  have h := runScopes_invariant settings (w.settings settings).m_stack es w [] w' live
    (fun t ht => absurd ht (List.not_mem_nil _)) (by simp) hrun
  refine ⟨w', live, hrun, h, ?_, ?_⟩
  · rw [h]; simp
  · intro hl
    rw [h, hl]; simp

/-- Witness of C8: two nested scopes entered and left on the default
configuration with the function-trace bit off. -/
theorem runScopes_stack_balance_witness :
    ∃ (w' : World) (live : List FuncTracer),
      runScopes 0 (plainWorld log_std false ["main()".toList], [])
          [.enter [] "f".toList true, .enter "A".toList "g".toList true,
            .leave "0.1".toList, .leave "0.2".toList] = some (w', live) ∧
        (w'.settings 0).m_stack =
          ((plainWorld log_std false ["main()".toList]).settings 0).m_stack ++
            live.reverse.map FuncTracer.m_name ∧
        (w'.settings 0).m_stack.length =
          ((plainWorld log_std false ["main()".toList]).settings 0).m_stack.length +
            live.length ∧
        (live = [] → (w'.settings 0).m_stack =
          ((plainWorld log_std false ["main()".toList]).settings 0).m_stack) :=
  runScopes_stack_balance 0 (plainWorld log_std false ["main()".toList])
    [.enter [] "f".toList true, .enter "A".toList "g".toList true,
      .leave "0.1".toList, .leave "0.2".toList] (by decide)

/-! ## C9: order of the effects of a tracer -/

theorem Logger.funcRecord (w : World) (settings : Nat) (a b : Str) :
    (((Logger.new settings).shl w (.type log_func)).shl w (.text a)).shl w (.text b) =
      { m_settings := settings, m_endl := true, m_type := log_func, m_line := a ++ b } := rfl

theorem Logger.funcRecord4 (w : World) (settings : Nat) (a b c e : Str) :
    (((((Logger.new settings).shl w (.type log_func)).shl w (.text a)).shl w (.text b)).shl w
        (.text c)).shl w (.text e) =
      { m_settings := settings, m_endl := true, m_type := log_func,
        m_line := a ++ b ++ c ++ e } := rfl

theorem Logger.destroy_funcRecord_streams (w : World) (settings : Nat) (txt : Str) (out : Nat)
    (hout : (w.settings settings).m_out = out)
    (hfunc : (w.settings settings).m_mask &&& log_func ≠ 0)
    (hcolor : (w.settings settings).m_printColor = false) :
    (Logger.destroy w
        { m_settings := settings, m_endl := true, m_type := log_func, m_line := txt }).streams
        out =
      w.streams out ++
        List.replicate ((w.settings settings).m_stack.length *
          (w.settings settings).m_indentWidth) ' ' ++ txt ++ ['\n'] := by
  subst hout
  have hpass : log_func &&& (w.settings settings).m_mask ≠ 0 := by
    rw [Nat.land_comm]; exact hfunc
  have hw : log_func ≠ log_warn := by decide
  have he : log_func ≠ log_error := by decide
  have hs : log_func ≠ log_stack := by decide
  have hd : ¬ Logger.dumpsStack w
      { m_settings := settings, m_endl := true, m_type := log_func, m_line := txt } := by
    intro h
    rcases h.2.2 with h | h
    · exact hw h
    · exact he h
  rw [Logger.destroy_streams, if_neg hd, List.append_nil, Logger.emit_streams,
    if_pos ⟨hpass, rfl⟩]
  simp only [Logger.ownText, Logger.switchText, if_neg hw, if_neg he, if_neg hs, if_pos hfunc,
    hcolor, colorSeq, if_true, Bool.false_eq_true, if_false, List.nil_append, List.append_nil,
    List.append_assoc]

theorem Logger.destroy_funcRecord_finalised (w : World) (settings : Nat) (txt : Str) :
    (Logger.destroy w
        { m_settings := settings, m_endl := true, m_type := log_func, m_line := txt }).finalised =
      w.finalised ++
        [{ m_settings := settings, m_endl := true, m_type := log_func, m_line := txt }] := by
  rw [Logger.destroy_finalised, if_neg (by simp [Logger.dumpsStack]), List.append_nil]

theorem LoggerSettings.endFunction_eq (s : LoggerSettings) :
    s.endFunction = { s with m_stack := s.m_stack.dropLast } := by
  unfold LoggerSettings.endFunction
  split
  · rename_i h
    rw [List.isEmpty_iff] at h
    cases s
    simp only at h
    subst h
    rfl
  · rfl

/-- C9: with the function-trace bit enabled and colour disabled, constructing
a tracer at call-stack depth `d` writes its entering line with `d` indent
levels and leaves the name pushed (the record is destroyed before the push);
destroying it at depth `d + 1` writes the `FUNC_TIME` line with `d + 1` indent
levels and then the exiting line with `d` (the pop happens between the two
records).  The records destroyed are, in this order, `<name> {` on
construction and `FUNC_TIME; <elapsed>; <name>`, `} <name>` on destruction. -/
theorem FuncTracer.effects_order (w : World) (classname funcname : Str) (addParenthesis : Bool)
    (settings : Nat) (w1 : World) (time_span : Str) (d : Nat) (t : FuncTracer)
    (ht : t = (FuncTracer.new w classname funcname addParenthesis settings).2)
    (hfunc : (w.settings settings).m_mask &&& log_func ≠ 0)
    (hcolor : (w.settings settings).m_printColor = false)
    (hd : (w.settings settings).m_stack.length = d)
    (hfunc1 : (w1.settings settings).m_mask &&& log_func ≠ 0)
    (hcolor1 : (w1.settings settings).m_printColor = false)
    (hd1 : (w1.settings settings).m_stack.length = d + 1) :
    ((FuncTracer.new w classname funcname addParenthesis settings).1.streams
        (w.settings settings).m_out =
      w.streams (w.settings settings).m_out ++
        List.replicate (d * (w.settings settings).m_indentWidth) ' ' ++ t.m_name ++
        " \x7b\n".toList) ∧
    ((FuncTracer.new w classname funcname addParenthesis settings).1.settings settings).m_stack =
      (w.settings settings).m_stack ++ [t.m_name] ∧
    (FuncTracer.new w classname funcname addParenthesis settings).1.finalised =
      w.finalised ++ [{ m_settings := settings, m_endl := true, m_type := log_func,
                        m_line := t.m_name ++ " \x7b".toList }] ∧
    ((t.destroy w1 time_span).streams (w1.settings settings).m_out =
      w1.streams (w1.settings settings).m_out ++
        List.replicate ((d + 1) * (w1.settings settings).m_indentWidth) ' ' ++
        "FUNC_TIME; ".toList ++ time_span ++ "; ".toList ++ t.m_name ++ ['\n'] ++
        List.replicate (d * (w1.settings settings).m_indentWidth) ' ' ++
        "\x7d ".toList ++ t.m_name ++ ['\n']) ∧
    ((t.destroy w1 time_span).settings settings).m_stack =
      (w1.settings settings).m_stack.dropLast ∧
    (t.destroy w1 time_span).finalised =
      w1.finalised ++
        [{ m_settings := settings, m_endl := true, m_type := log_func,
           m_line := "FUNC_TIME; ".toList ++ time_span ++ "; ".toList ++ t.m_name },
         { m_settings := settings, m_endl := true, m_type := log_func,
           m_line := "\x7d ".toList ++ t.m_name }] := by
  have hts : t.m_settings = settings := by rw [ht]; rfl
  have hname : (if classname ≠ [] then classname ++ "::".toList else []) ++ funcname ++
      (if addParenthesis then "()".toList else []) = t.m_name := by rw [ht]; rfl
  have hend : ((w1.settings settings).endFunction.m_mask = (w1.settings settings).m_mask ∧
      (w1.settings settings).endFunction.m_printColor = (w1.settings settings).m_printColor) ∧
      ((w1.settings settings).endFunction.m_out = (w1.settings settings).m_out ∧
      (w1.settings settings).endFunction.m_indentWidth = (w1.settings settings).m_indentWidth) ∧
      (w1.settings settings).endFunction.m_stack.length = d := by
    rw [LoggerSettings.endFunction_eq]
    refine ⟨⟨rfl, rfl⟩, ⟨rfl, rfl⟩, ?_⟩
    simp only [List.length_dropLast, hd1, Nat.add_sub_cancel]
  refine ⟨?_, ?_, ?_, ?_, ?_, ?_⟩
  · simp only [FuncTracer.new, World.setSettings_streams, hname]
    rw [Logger.funcRecord, Logger.destroy_funcRecord_streams _ _ _ _ rfl hfunc hcolor, hd]
    simp only [List.append_assoc]
    rfl
  · rw [FuncTracer.new_settings, ← ht]; rfl
  · simp only [FuncTracer.new, World.setSettings_finalised, hname]
    rw [Logger.funcRecord, Logger.destroy_funcRecord_finalised]
  · simp only [FuncTracer.destroy, hts]
    rw [Logger.funcRecord4, Logger.funcRecord,
      Logger.destroy_funcRecord_streams _ _ _ (w1.settings settings).m_out
        (by rw [World.setSettings_same, Logger.destroy_settings, hend.2.1.1])
        (by rw [World.setSettings_same, Logger.destroy_settings, hend.1.1]; exact hfunc1)
        (by rw [World.setSettings_same, Logger.destroy_settings, hend.1.2]; exact hcolor1)]
    simp only [World.setSettings_same, World.setSettings_streams, Logger.destroy_settings,
      hend.2.1.2, hend.2.2]
    rw [Logger.destroy_funcRecord_streams _ _ _ _ rfl hfunc1 hcolor1, hd1]
    simp only [List.append_assoc]
  · rw [← hts, FuncTracer.destroy_pops, LoggerSettings.endFunction_stack]
  · simp only [FuncTracer.destroy, hts]
    rw [Logger.funcRecord4, Logger.funcRecord, Logger.destroy_funcRecord_finalised]
    simp only [World.setSettings_finalised]
    rw [Logger.destroy_funcRecord_finalised]
    simp only [List.append_assoc, List.singleton_append]

/-- Witness of C9: `FuncTracer("f")` constructed at depth 1 with every level
enabled and colour disabled, and destroyed right after. -/
theorem FuncTracer.effects_order_witness :
    (FuncTracer.new (plainWorld log_all false ["main()".toList]) [] "f".toList true 0).1.streams 0 =
        "  f() \x7b\n".toList ∧
      (FuncTracer.destroy
          (FuncTracer.new (plainWorld log_all false ["main()".toList]) [] "f".toList true 0).1
          (FuncTracer.new (plainWorld log_all false ["main()".toList]) [] "f".toList true 0).2
          "0.5".toList).finalised =
        (FuncTracer.new (plainWorld log_all false ["main()".toList]) [] "f".toList true
            0).1.finalised ++
          [{ m_settings := 0, m_endl := true, m_type := log_func,
             m_line := "FUNC_TIME; 0.5; f()".toList },
           { m_settings := 0, m_endl := true, m_type := log_func,
             m_line := "\x7d f()".toList }] :=
  ⟨(FuncTracer.effects_order (plainWorld log_all false ["main()".toList]) [] "f".toList true 0
      (FuncTracer.new (plainWorld log_all false ["main()".toList]) [] "f".toList true 0).1
      "0.5".toList 1 _ rfl (by decide) rfl rfl
      (by rw [FuncTracer.new_settings]; decide) (by rw [FuncTracer.new_settings]; rfl)
      (by rw [FuncTracer.new_settings]; rfl)).1,
    (FuncTracer.effects_order (plainWorld log_all false ["main()".toList]) [] "f".toList true 0
      (FuncTracer.new (plainWorld log_all false ["main()".toList]) [] "f".toList true 0).1
      "0.5".toList 1 _ rfl (by decide) rfl rfl
      (by rw [FuncTracer.new_settings]; decide) (by rw [FuncTracer.new_settings]; rfl)
      (by rw [FuncTracer.new_settings]; rfl)).2.2.2.2.2⟩

/-! ## C10: the name of a tracer -/

/-- C10: the name of `FuncTracer(c, f, p, settings)` is `c` followed by `::`
when `c` is not empty, then `f`, then `()` exactly when `p` is true.  This is
the name pushed on the call-stack and the text, followed by ` {`, of the
function-trace record of the constructor.  The constructor taking the function
name alone is the three-argument one with `c` empty, and the anonymous one has
`c` and `f` empty. -/
theorem FuncTracer.name_canonical (w : World) (c f : Str) (p : Bool) (settings : Nat) :
    (FuncTracer.new w c f p settings).2.m_name =
        (if c = [] then [] else c ++ "::".toList) ++ f ++ (if p = true then "()".toList else []) ∧
      ((FuncTracer.new w c f p settings).1.settings settings).m_stack =
        (w.settings settings).m_stack ++
          [(if c = [] then [] else c ++ "::".toList) ++ f ++
            (if p = true then "()".toList else [])] ∧
      (FuncTracer.new w c f p settings).1.finalised =
        w.finalised ++
          [{ m_settings := settings, m_endl := true, m_type := log_func,
             m_line := ((if c = [] then [] else c ++ "::".toList) ++ f ++
               (if p = true then "()".toList else [])) ++ " \x7b".toList }] ∧
      FuncTracer.newFunc w f p settings = FuncTracer.new w [] f p settings ∧
      FuncTracer.newAnon w p settings = FuncTracer.new w [] [] p settings := by
  have hname : (if c ≠ [] then c ++ "::".toList else []) ++ f ++
      (if p then "()".toList else []) =
      (if c = [] then [] else c ++ "::".toList) ++ f ++ (if p = true then "()".toList else []) := by
    by_cases hc : c = []
    · simp [hc]
    · simp [hc]
  refine ⟨?_, ?_, ?_, rfl, rfl⟩
  · rw [FuncTracer.new_tracer, hname]
  · rw [FuncTracer.new_settings, FuncTracer.new_tracer, hname]; rfl
  · simp only [FuncTracer.new, World.setSettings_finalised]
    rw [Logger.funcRecord, Logger.destroy_funcRecord_finalised, hname]

/-! ## C11: the record of `FuncArg` -/

theorem Logger.not_dumpsStack_arg (w : World) (settings : Nat) (argname txt : Str) :
    ¬ Logger.dumpsStack w (argRecord settings argname txt) := by
  intro h
  rcases h.2.2 with h | h
  · exact absurd (show log_arg = log_warn from h) (by decide)
  · exact absurd (show log_arg = log_error from h) (by decide)

theorem FuncArgString_eq (w : World) (argname argvalue : Str) (settings : Nat) :
    FuncArgString w argname argvalue settings =
      Logger.destroy w (argRecord settings argname ("'".toList ++ argvalue ++ "'".toList)) := by
  have h : " = '".toList = " = ".toList ++ "'".toList := rfl
  simp only [FuncArgString, Logger.shl, Logger.new, Logger.newEndl, argRecord, h,
    List.nil_append, List.append_assoc]

theorem FuncArg_eq_of_plainText (w : World) (argname : Str) (v : LogValue) (txt : Str)
    (settings : Nat) (hv : v.plainText = some txt) :
    FuncArg w argname v settings = Logger.destroy w (argRecord settings argname txt) := by
  cases v with
  | type t => simp [LogValue.plainText] at hv
  | color c => simp [LogValue.plainText] at hv
  | bool b =>
    simp only [LogValue.plainText, Option.some.injEq] at hv
    subst hv
    simp only [FuncArg, Logger.shl, Logger.new, Logger.newEndl, argRecord, List.nil_append]
  | text t =>
    simp only [LogValue.plainText, Option.some.injEq] at hv
    subst hv
    simp only [FuncArg, Logger.shl, Logger.new, Logger.newEndl, argRecord, List.nil_append]
  | int i =>
    simp only [LogValue.plainText, Option.some.injEq] at hv
    subst hv
    simp only [FuncArg, Logger.shl, Logger.new, Logger.newEndl, argRecord, List.nil_append]

theorem FuncArgCall_eq_of_shown (w : World) (argname : Str) (v : ArgValue) (txt : Str)
    (settings : Nat) (hv : v.shown = some txt) :
    FuncArgCall w argname v settings = Logger.destroy w (argRecord settings argname txt) := by
  cases v with
  | string t =>
    simp only [ArgValue.shown, Option.some.injEq] at hv
    subst hv
    exact FuncArgString_eq w argname t settings
  | other u => exact FuncArg_eq_of_plainText w argname u txt settings hv

theorem Logger.destroy_argRecord_finalised (w : World) (settings : Nat) (argname txt : Str) :
    (Logger.destroy w (argRecord settings argname txt)).finalised =
      w.finalised ++ [argRecord settings argname txt] := by
  rw [Logger.destroy_finalised, if_neg (Logger.not_dumpsStack_arg w settings argname txt),
    List.append_nil]

/-- C11 (the claim at a `LoggerType` value): `FuncArg("lvl", log_warn)` with
every level enabled and colour disabled destroys one record of level `log_warn`,
not `log_arg`, whose text is `lvl = ` with no text for the value, and the sink
shows a warning; the claim gives an argument-level record `lvl = 16`. -/
theorem FuncArg_level_value :
    (FuncArg (plainWorld log_all false []) "lvl".toList (.type log_warn) 0).finalised =
        [{ m_settings := 0, m_endl := true, m_type := log_warn, m_line := "lvl = ".toList }] ∧
      log_warn ≠ log_arg ∧
      (FuncArg (plainWorld log_all false []) "lvl".toList (.type log_warn) 0).streams 0 =
        "WARNING: lvl = \n".toList := by
  refine ⟨?_, by decide, ?_⟩
  · rw [FuncArg, Logger.destroy_finalised]; decide
  · rw [FuncArg, Logger.destroy_streams, Logger.emit_streams]; decide

/-- C11 (amended): `FuncArg` on a `std::string` value destroys exactly one
record, of level `log_arg`, with text `<name> = '<value>'`; on a value that the
record formats as text (an integer, a boolean as `true` or `false`, a C string)
it destroys exactly one record of level `log_arg` with text `<name> = <text>`
and no quotes.  A `LoggerType` value becomes the level of the record and a
`LoggerColor` value adds its escape sequence when colour is on and nothing
otherwise; in both cases the text for the value is missing. -/
theorem FuncArg_record (w : World) (argname : Str) (settings : Nat) :
    (∀ v : Str,
      FuncArgString w argname v settings =
        Logger.destroy w
          { m_settings := settings, m_endl := true, m_type := log_arg,
            m_line := argname ++ " = '".toList ++ v ++ "'".toList } ∧
      (FuncArgString w argname v settings).finalised =
        w.finalised ++
          [{ m_settings := settings, m_endl := true, m_type := log_arg,
             m_line := argname ++ " = '".toList ++ v ++ "'".toList }]) ∧
    (∀ (v : LogValue) (txt : Str), v.plainText = some txt →
      FuncArg w argname v settings =
        Logger.destroy w
          { m_settings := settings, m_endl := true, m_type := log_arg,
            m_line := argname ++ " = ".toList ++ txt } ∧
      (FuncArg w argname v settings).finalised =
        w.finalised ++
          [{ m_settings := settings, m_endl := true, m_type := log_arg,
             m_line := argname ++ " = ".toList ++ txt }]) ∧
    (∀ t : Nat,
      FuncArg w argname (.type t) settings =
        Logger.destroy w
          { m_settings := settings, m_endl := true, m_type := t,
            m_line := argname ++ " = ".toList }) ∧
    (∀ c : Nat,
      FuncArg w argname (.color c) settings =
        Logger.destroy w
          { m_settings := settings, m_endl := true, m_type := log_arg,
            m_line := argname ++ " = ".toList ++
              (if (w.settings settings).m_printColor then
                [ESC, '['] ++ decimal c ++ ['m'] else []) }) := by
  have hq : ∀ v : Str, argname ++ " = '".toList ++ v ++ "'".toList =
      argname ++ " = ".toList ++ ("'".toList ++ v ++ "'".toList) := by
    intro v
    have h : " = '".toList = " = ".toList ++ "'".toList := rfl
    simp only [h, List.append_assoc]
  refine ⟨fun v => ?_, fun v txt hv => ?_, fun t => ?_, fun c => ?_⟩
  · rw [hq, FuncArgString_eq]
    exact ⟨rfl, Logger.destroy_argRecord_finalised w settings argname _⟩
  · rw [FuncArg_eq_of_plainText w argname v txt settings hv]
    exact ⟨rfl, Logger.destroy_argRecord_finalised w settings argname txt⟩
  · simp only [FuncArg, Logger.shl, Logger.new, Logger.newEndl, List.nil_append]
  · simp only [FuncArg, Logger.shl, Logger.new, Logger.newEndl, List.nil_append,
      Logger.setFGcolor_eq, colorSeq]

/-- Witness of C11: name `y` with the integer 5 gives the record `y = 5`. -/
theorem FuncArg_record_witness :
    FuncArg (plainWorld log_all false []) "y".toList (.int 5) 0 =
      Logger.destroy (plainWorld log_all false [])
        { m_settings := 0, m_endl := true, m_type := log_arg, m_line := "y = 5".toList } :=
  ((FuncArg_record (plainWorld log_all false []) "y".toList 0).2.1 (.int 5) "5".toList rfl).1

/-! ## C12: the names and the pairing of `FuncArgs` -/

theorem segments_ne_nil (cs : Str) : ∃ s ss, segments cs = s :: ss := by
  cases h : segments cs with
  | nil => exact absurd h (List.splitOnP_ne_nil _ _)
  | cons s ss => exact ⟨s, ss, rfl⟩

theorem segments_cons (c : Char) (cs : Str) :
    segments (c :: cs) =
      if c = ',' then [] :: segments cs else (segments cs).modifyHead (List.cons c) := by
  unfold segments List.splitOn
  rw [List.splitOnP_cons]
  by_cases h : c = ','
  · simp [h]
  · simp [h]

theorem FuncArgs.turn_foldl (cs : Str) :
    ∀ (cur : Str) (done : List Str),
      (cs.foldl FuncArgs.turn (cur, done)).2 ++ [(cs.foldl FuncArgs.turn (cur, done)).1] =
        done ++ ((segments cs).map stripSpaces).modifyHead (fun s => cur ++ s) := by
  induction cs with
  | nil =>
    intro cur done
    simp [segments, List.splitOn, List.splitOnP_nil, stripSpaces, List.modifyHead]
  | cons c cs ih =>
    intro cur done
    obtain ⟨s, ss, hs⟩ := segments_ne_nil cs
    rw [List.foldl_cons, segments_cons, hs]
    by_cases hc : c = ','
    · have ht : FuncArgs.turn (cur, done) c = ([], done ++ [cur]) := by
        simp [FuncArgs.turn, hc]
      rw [ht, ih, hs, if_pos hc]
      simp [List.modifyHead, stripSpaces]
    · by_cases hsp : c = ' '
      · have ht : FuncArgs.turn (cur, done) c = (cur, done) := by
          simp [FuncArgs.turn, hsp]
        rw [ht, ih, hs, if_neg hc]
        simp [List.modifyHead, stripSpaces, hsp]
      · have ht : FuncArgs.turn (cur, done) c = (cur ++ [c], done) := by
          simp [FuncArgs.turn, hc, hsp]
        rw [ht, ih, hs, if_neg hc]
        simp [List.modifyHead, stripSpaces, hsp]

/-- The names `FuncArgs` reads are the comma-separated segments of the string,
each without its space characters. -/
theorem FuncArgs.names_eq (argnames : Str) :
    FuncArgs.names argnames = (segments argnames).map stripSpaces := by
  obtain ⟨s, ss, hs⟩ := segments_ne_nil argnames
  unfold FuncArgs.names
  rw [FuncArgs.turn_foldl, hs]
  simp [List.modifyHead]

theorem funcArgs_of_le (argvalues : List ArgValue) :
    ∀ (w : World) (argnames : List Str), argvalues.length ≤ argnames.length →
      _funcArgs w argnames argvalues = some (callAll w (argnames.zip argvalues)) := by
  induction argvalues with
  | nil => intro w argnames _; simp [_funcArgs, callAll]
  | cons v vs ih =>
    intro w argnames h
    cases argnames with
    | nil => simp at h
    | cons n ns =>
      rw [_funcArgs, ih _ ns (by simpa using h)]
      rfl

theorem funcArgs_of_lt (argvalues : List ArgValue) :
    ∀ (w : World) (argnames : List Str), argnames.length < argvalues.length →
      _funcArgs w argnames argvalues = none := by
  induction argvalues with
  | nil => intro w argnames h; simp at h
  | cons v vs ih =>
    intro w argnames h
    cases argnames with
    | nil => rfl
    | cons n ns =>
      rw [_funcArgs]
      exact ih _ ns (by simpa using h)

theorem callAll_finalised (pairs : List (Str × ArgValue)) :
    ∀ w : World, (∀ p ∈ pairs, p.2.shown ≠ none) →
      (callAll w pairs).finalised =
        w.finalised ++ pairs.map (fun p => argRecord defaultLoggerSettings p.1 (p.2.shown.getD [])) := by
  induction pairs with
  | nil => intro w _; simp [callAll]
  | cons p ps ih =>
    intro w h
    have hp : p.2.shown ≠ none := h p (List.mem_cons_self _ _)
    obtain ⟨txt, htxt⟩ := Option.ne_none_iff_exists'.mp hp
    have hstep : callAll w (p :: ps) =
        callAll (FuncArgCall w p.1 p.2 defaultLoggerSettings) ps := rfl
    rw [hstep, ih _ (fun q hq => h q (List.mem_cons_of_mem _ hq)),
      FuncArgCall_eq_of_shown w p.1 p.2 txt _ htxt, Logger.destroy_argRecord_finalised]
    simp [htxt]

theorem zip_values_of_shown (names : List Str) (argvalues : List ArgValue)
    (h : ∀ v ∈ argvalues, v.shown ≠ none) : ∀ p ∈ names.zip argvalues, p.2.shown ≠ none := by
  intro p hp
  exact h p.2 (List.of_mem_zip hp).2

/-- C12 (the claim at a names string with a tab): for `FuncArgs("a,\tb", 1, 2)`
the segments without whitespace are `a` and `b`, but the second record the
code destroys has the name `\tb`: its text is `\tb = 2`, not `b = 2`. -/
theorem FuncArgs_keeps_tab :
    (segments "a,\tb".toList).map stripWhitespace = ["a".toList, "b".toList] ∧
      (∃ w' : World,
        FuncArgs (plainWorld log_all false []) "a,\tb".toList
            [.other (.int 1), .other (.int 2)] = some w' ∧
          w'.finalised =
            [{ m_settings := 0, m_endl := true, m_type := log_arg, m_line := "a = 1".toList },
             { m_settings := 0, m_endl := true, m_type := log_arg,
               m_line := "\tb = 2".toList }]) ∧
      "\tb = 2".toList ≠ "b = 2".toList := by
  refine ⟨by decide,
    ⟨callAll (plainWorld log_all false [])
      [("a".toList, .other (.int 1)), ("\tb".toList, .other (.int 2))], ?_, ?_⟩, by decide⟩
  · have hn : FuncArgs.names "a,\tb".toList = ["a".toList, "\tb".toList] := by decide
    rw [FuncArgs, hn]
    exact funcArgs_of_le _ _ _ (by decide)
  · rw [callAll_finalised _ _ (by decide)]
    decide

/-- C12 (amended): for a names string of `n` comma-separated segments and `n`
values, the names `FuncArgs` reads are the segments without their space
characters (a tab or a newline stays in the name), and `FuncArgs` completes as
the calls `FuncArg(name_i, value_i)` in positional order.  When every value is
one that `FuncArg` shows as text (C11), these calls destroy exactly `n`
argument-level records, the `i`-th with text `<name_i> = <value_i>`. -/
theorem FuncArgs_pairs (w : World) (argnames : Str) (argvalues : List ArgValue)
    (hn : argvalues.length = (segments argnames).length) :
    FuncArgs.names argnames = (segments argnames).map stripSpaces ∧
      FuncArgs w argnames argvalues =
        some (callAll w (((segments argnames).map stripSpaces).zip argvalues)) ∧
      ((∀ v ∈ argvalues, v.shown ≠ none) →
        (callAll w (((segments argnames).map stripSpaces).zip argvalues)).finalised =
            w.finalised ++ (((segments argnames).map stripSpaces).zip argvalues).map
              (fun p => argRecord defaultLoggerSettings p.1 (p.2.shown.getD [])) ∧
          ((((segments argnames).map stripSpaces).zip argvalues).map
            (fun p => argRecord defaultLoggerSettings p.1 (p.2.shown.getD []))).length =
            (segments argnames).length) := by
  refine ⟨FuncArgs.names_eq argnames, ?_, fun hv => ⟨?_, ?_⟩⟩
  · rw [FuncArgs, FuncArgs.names_eq]
    exact funcArgs_of_le _ _ _ (by simp [hn])
  · exact callAll_finalised _ _ (zip_values_of_shown _ _ hv)
  · simp [hn]

/-- Witness of C12: `FuncArgs("x, y", std::string("hello"), 5)`. -/
theorem FuncArgs_pairs_witness :
    FuncArgs (plainWorld log_all false []) "x, y".toList
        [.string "hello".toList, .other (.int 5)] =
      some (callAll (plainWorld log_all false [])
        [("x".toList, .string "hello".toList), ("y".toList, .other (.int 5))]) :=
  (FuncArgs_pairs (plainWorld log_all false []) "x, y".toList
    [.string "hello".toList, .other (.int 5)] (by decide)).2.1

/-! ## C13: more values than names -/

/-- C13 (the claim at one name and two values): `FuncArgs("a", 1, 2)` does not
complete.  After the record for `a` the name list is empty and `_funcArgs`
takes its front for the second value. -/
theorem FuncArgs_front_of_empty :
    FuncArgs (plainWorld log_all false []) "a".toList [.other (.int 1), .other (.int 2)] =
      none := by
  have hn : FuncArgs.names "a".toList = ["a".toList] := by decide
  rw [FuncArgs, hn]
  exact funcArgs_of_lt _ _ _ (by decide)

/-- C13 (amended): with `m` comma-separated segments and `k` values, when
`k ≤ m` `FuncArgs` completes as the calls `FuncArg(name_i, value_i)` for the
first `k` names, in order (`k` records when every value is one `FuncArg` shows
as text), and the other names are not used; when `k > m` it does not complete:
after `m` calls `_funcArgs` takes the front of an empty name list, which is
undefined behaviour.  There is no check of the two counts. -/
theorem FuncArgs_mismatch (w : World) (argnames : Str) (argvalues : List ArgValue) :
    (argvalues.length ≤ (segments argnames).length →
      FuncArgs w argnames argvalues =
          some (callAll w (((segments argnames).map stripSpaces).zip argvalues)) ∧
        (((segments argnames).map stripSpaces).zip argvalues).length = argvalues.length ∧
        ((∀ v ∈ argvalues, v.shown ≠ none) →
          (callAll w (((segments argnames).map stripSpaces).zip argvalues)).finalised.length =
            w.finalised.length + argvalues.length)) ∧
    ((segments argnames).length < argvalues.length → FuncArgs w argnames argvalues = none) := by
  constructor
  · intro h
    refine ⟨?_, by simp [h], fun hv => ?_⟩
    · rw [FuncArgs, FuncArgs.names_eq]
      exact funcArgs_of_le _ _ _ (by simp [h])
    · rw [callAll_finalised _ _ (zip_values_of_shown _ _ hv)]
      simp [h]
  · intro h
    rw [FuncArgs, FuncArgs.names_eq]
    exact funcArgs_of_lt _ _ _ (by simp [h])

/-- Witness of C13: two names with one value complete as one call; one name
with two values does not complete. -/
theorem FuncArgs_mismatch_witness :
    FuncArgs (plainWorld log_all false []) "a, b".toList [.other (.int 1)] =
        some (callAll (plainWorld log_all false []) [("a".toList, .other (.int 1))]) ∧
      FuncArgs (plainWorld log_all false []) "a".toList
        [.other (.int 1), .other (.int 2)] = none :=
  ⟨((FuncArgs_mismatch (plainWorld log_all false []) "a, b".toList [.other (.int 1)]).1
      (by decide)).1,
    (FuncArgs_mismatch (plainWorld log_all false []) "a".toList
      [.other (.int 1), .other (.int 2)]).2 (by decide)⟩

/-! ## C14: the level of a record -/

theorem getLast_getD_cons (t d : Nat) (ts : List Nat) :
    ((t :: ts).getLast?).getD d = (ts.getLast?).getD t := by
  cases ts with
  | nil => rfl
  | cons u us =>
    rw [List.getLast?_cons_cons, List.getLast?_eq_getLast _ (List.cons_ne_nil u us)]
    rfl

theorem Logger.shlAll_type (w : World) (vs : List LogValue) :
    ∀ L : Logger, (L.shlAll w vs).m_type =
      ((vs.filterMap (fun v => match v with
        | .type t => some t
        | _ => none)).getLast?).getD L.m_type := by
  induction vs with
  | nil => intro L; rfl
  | cons v vs ih =>
    intro L
    have hstep : L.shlAll w (v :: vs) = (L.shl w v).shlAll w vs := rfl
    rw [hstep, ih]
    cases v with
    | type t => simp only [List.filterMap_cons, getLast_getD_cons]; rfl
    | color c => rfl
    | bool b => rfl
    | text t => rfl
    | int i => rfl

/-- C14: whatever is streamed into a record made by either constructor, its
level `m_type`, which the destructor reads, is the last `LoggerType` value of
the chain, or `log_log` when the chain has none; streaming a `LoggerType` value
sets the level and leaves the buffered line as it was. -/
theorem Logger.last_level_wins (w : World) (endl : Bool) (settings : Nat)
    (vs : List LogValue) :
    ((Logger.newEndl endl settings).shlAll w vs).m_type = lastLevel vs ∧
      ((Logger.new settings).shlAll w vs).m_type = lastLevel vs ∧
      ∀ (L : Logger) (t : Nat),
        (L.shl w (.type t)).m_line = L.m_line ∧ (L.shl w (.type t)).m_type = t := by
  refine ⟨?_, ?_, fun L t => ⟨rfl, rfl⟩⟩
  · rw [Logger.shlAll_type]; rfl
  · rw [Logger.shlAll_type]; rfl

/-! ## C15: `beginFunction` and `endFunction` -/

/-- C15: `endFunction()` on a call-stack `init ++ [last]` leaves `init` and
changes nothing else; on an empty call-stack it changes nothing;
`beginFunction(name)` appends `name`, and `endFunction()` after it gives the
configuration back as it was. -/
theorem LoggerSettings.endFunction_spec (s : LoggerSettings) (name : Str) :
    (∀ (init : List Str) (last : Str), s.m_stack = init ++ [last] →
      s.endFunction = { s with m_stack := init }) ∧
    (s.m_stack = [] → s.endFunction = s) ∧
    (s.beginFunction name).m_stack = s.m_stack ++ [name] ∧
    (s.beginFunction name).endFunction = s := by
  refine ⟨fun init last h => ?_, fun h => ?_, rfl, ?_⟩
  · rw [LoggerSettings.endFunction_eq, h, List.dropLast_concat]
  · rw [LoggerSettings.endFunction_eq, h]
    cases s
    simp only at h
    subst h
    rfl
  · rw [LoggerSettings.endFunction_eq]
    simp only [LoggerSettings.beginFunction, List.dropLast_concat]

/-- Witness of C15: popping `[main(), f()]` leaves `[main()]`, and popping an
empty call-stack changes nothing. -/
theorem LoggerSettings.endFunction_spec_witness :
    ({ LoggerSettings.newDefault with
        m_stack := ["main()".toList, "f()".toList] } : LoggerSettings).endFunction =
        { LoggerSettings.newDefault with m_stack := ["main()".toList] } ∧
      LoggerSettings.newDefault.endFunction = LoggerSettings.newDefault :=
  ⟨(LoggerSettings.endFunction_spec
      { LoggerSettings.newDefault with m_stack := ["main()".toList, "f()".toList] } []).1
      ["main()".toList] "f()".toList rfl,
    (LoggerSettings.endFunction_spec LoggerSettings.newDefault []).2.1 rfl⟩

/-! ## C16: what a destructor leaves alone -/

theorem Logger.destroy_streams_append (w : World) (L : Logger) (k : Nat) :
    ∃ t : Str, (L.destroy w).streams k = w.streams k ++ t := by
  rw [Logger.destroy_streams, Logger.emit_streams]
  split
  · exact ⟨_, List.append_assoc _ _ _⟩
  · exact ⟨_, rfl⟩

/-- C16: the destructor of any record (any level, mask and `m_endl`, the stack
dump of a warning or error included) leaves every configuration as it was:
mask, colour flag, indent width and call-stack.  It only appends to streams,
and a stream that is the sink neither of the record's configuration nor of the
default one keeps its content. -/
theorem Logger.destroy_frame (w : World) (L : Logger) :
    (L.destroy w).settings = w.settings ∧
      (∀ r : Nat,
        ((L.destroy w).settings r).m_mask = (w.settings r).m_mask ∧
        ((L.destroy w).settings r).m_printColor = (w.settings r).m_printColor ∧
        ((L.destroy w).settings r).m_indentWidth = (w.settings r).m_indentWidth ∧
        ((L.destroy w).settings r).m_stack = (w.settings r).m_stack ∧
        ((L.destroy w).settings r).m_out = (w.settings r).m_out) ∧
      (∀ k : Nat, ∃ t : Str, (L.destroy w).streams k = w.streams k ++ t) ∧
      (∀ k : Nat, k ≠ (w.settings L.m_settings).m_out →
        k ≠ (w.settings defaultLoggerSettings).m_out → (L.destroy w).streams k = w.streams k) := by
  refine ⟨Logger.destroy_settings w L, fun r => ?_, Logger.destroy_streams_append w L, ?_⟩
  · rw [Logger.destroy_settings]
    exact ⟨rfl, rfl, rfl, rfl, rfl⟩
  · intro k h1 h2
    rw [Logger.destroy_streams, Logger.emit_streams, if_neg (fun h => h1 h.2)]
    unfold dumpText
    rw [if_neg h2]
    simp

/-- Witness of C16: stream 5 is the sink of no configuration of `twoConfigWorld`
and keeps its content when a warning bound to configuration 1 is destroyed. -/
theorem Logger.destroy_frame_witness :
    (((Logger.new 1).shl twoConfigWorld (.type log_warn)).destroy twoConfigWorld).streams 5 =
      twoConfigWorld.streams 5 :=
  (Logger.destroy_frame twoConfigWorld ((Logger.new 1).shl twoConfigWorld (.type log_warn))).2.2.2
    5 (by decide) (by decide)

/-! ## C17: the level constants and the default mask -/

theorem Logger.destroy_filtered (w : World) (L : Logger)
    (hm : L.m_type &&& (w.settings L.m_settings).m_mask = 0) :
    (L.destroy w).streams = w.streams := by
  funext k
  rw [Logger.destroy_streams, Logger.emit_streams]
  simp [Logger.dumpsStack, hm]

theorem Logger.destroy_changes_sink (w : World) (L : Logger) (hendl : L.m_endl = true)
    (hm : L.m_type &&& (w.settings L.m_settings).m_mask ≠ 0) :
    (L.destroy w).streams (w.settings L.m_settings).m_out ≠
      w.streams (w.settings L.m_settings).m_out := by
  rw [Logger.destroy_streams, Logger.emit_streams, if_pos ⟨hm, rfl⟩]
  intro heq
  have hlen := congrArg List.length heq
  have hpos : 0 < (L.ownText (w.settings L.m_settings)).length :=
    List.length_pos.mpr (Logger.ownText_ne_nil (w.settings L.m_settings) L hendl)
  simp only [List.length_append] at hlen
  omega

/-- C17: the six level constants are the single bits `0x01` (function-trace),
`0x02` (argument), `0x04` (stack-frame), `0x08` (info), `0x10` (warning) and
`0x20` (error), pairwise disjoint; `log_all` is their bitwise or, `0x3F`, and
`log_std` is `log_warn | log_error | log_stack`, `0x34`, the mask of a
default-constructed configuration.  On a configuration with that mask a record
of level warning, error or stack-frame passes the gate of the destructor and,
made by the public constructor, changes its sink, and one of level info (a record with no level streamed in is one),
function-trace or argument leaves every stream as it was. -/
theorem level_constants_and_default (w : World) (L : Logger)
    (hmask : (w.settings L.m_settings).m_mask = LoggerSettings.newDefault.m_mask) :
    (log_func = 0x01 ∧ log_arg = 0x02 ∧ log_stack = 0x04 ∧ log_log = 0x08 ∧
      log_warn = 0x10 ∧ log_error = 0x20 ∧ log_none = 0x00) ∧
    (∀ a ∈ [log_func, log_arg, log_stack, log_log, log_warn, log_error],
      ∀ b ∈ [log_func, log_arg, log_stack, log_log, log_warn, log_error],
        a ≠ b → a &&& b = 0) ∧
    (log_all = log_func ||| log_arg ||| log_stack ||| log_log ||| log_warn ||| log_error ∧
      log_all = 0x3F) ∧
    (log_std = log_warn ||| log_error ||| log_stack ∧ log_std = 0x34 ∧
      LoggerSettings.newDefault.m_mask = log_std) ∧
    ((L.m_type = log_warn ∨ L.m_type = log_error ∨ L.m_type = log_stack) →
      L.m_type &&& (w.settings L.m_settings).m_mask ≠ 0 ∧
        (L.m_endl = true →
          (L.destroy w).streams (w.settings L.m_settings).m_out ≠
            w.streams (w.settings L.m_settings).m_out)) ∧
    ((L.m_type = log_log ∨ L.m_type = log_func ∨ L.m_type = log_arg) →
      (L.destroy w).streams = w.streams) ∧
    (Logger.new L.m_settings).m_type = log_log := by
  have hstd : (w.settings L.m_settings).m_mask = log_std := hmask
  refine ⟨by decide, by decide, by decide, by decide, fun ht => ?_, fun ht => ?_, rfl⟩
  · have hp : L.m_type &&& (w.settings L.m_settings).m_mask ≠ 0 := by
      rw [hstd]
      rcases ht with h | h | h <;> rw [h] <;> decide
    exact ⟨hp, fun hendl => Logger.destroy_changes_sink w L hendl hp⟩
  · apply Logger.destroy_filtered
    rw [hstd]
    rcases ht with h | h | h <;> rw [h] <;> decide

/-- Witness of C17 on a process whose configurations are default-constructed
ones with colour off: a warning changes the sink, a record with no level
streamed in changes no stream. -/
theorem level_constants_and_default_witness :
    (((Logger.new 0).shl (plainWorld log_std false []) (.type log_warn)).destroy
        (plainWorld log_std false [])).streams 0 ≠ (plainWorld log_std false []).streams 0 ∧
      ((Logger.new 0).destroy (plainWorld log_std false [])).streams =
        (plainWorld log_std false []).streams :=
  ⟨((level_constants_and_default (plainWorld log_std false [])
      ((Logger.new 0).shl (plainWorld log_std false []) (.type log_warn)) rfl).2.2.2.2.1
      (Or.inl rfl)).2 rfl,
    (level_constants_and_default (plainWorld log_std false []) (Logger.new 0) rfl).2.2.2.2.2.1
      (Or.inl rfl)⟩

/-! ## C18: the continuation variant -/

/-- C18: the destructor of a record with `m_endl` false that passes the mask
leaves on its sink what the `switch` writes for the level (the header of a
warning or error, the colour of a stack frame, the indentation otherwise)
followed by the buffered line, and nothing after it: no colour reset and no
newline.  No other stream changes and no further record is destroyed: there is
no stack dump, also for a warning or an error. -/
theorem Logger.destroy_continuation (w : World) (L : Logger)
    (hendl : L.m_endl = false)
    (hpass : L.m_type &&& (w.settings L.m_settings).m_mask ≠ 0) :
    (L.destroy w).streams (w.settings L.m_settings).m_out =
        (L.switchType w (w.streams (w.settings L.m_settings).m_out)).1 ++ L.m_line ∧
      (∀ k : Nat, k ≠ (w.settings L.m_settings).m_out → (L.destroy w).streams k = w.streams k) ∧
      (L.destroy w).finalised = w.finalised ++ [L] ∧
      (L.m_type = log_warn → (w.settings L.m_settings).m_printColor = false →
        (L.destroy w).streams (w.settings L.m_settings).m_out =
          w.streams (w.settings L.m_settings).m_out ++ "WARNING: ".toList ++ L.m_line) ∧
      (L.m_type = log_error → (w.settings L.m_settings).m_printColor = false →
        (L.destroy w).streams (w.settings L.m_settings).m_out =
          w.streams (w.settings L.m_settings).m_out ++ "ERROR: ".toList ++ L.m_line) := by
  have hd : ¬ L.dumpsStack w := by
    intro h
    have h1 : L.m_endl = true := h.2.1
    rw [hendl] at h1
    exact absurd h1 (by decide)
  have hsink : (L.destroy w).streams (w.settings L.m_settings).m_out =
      w.streams (w.settings L.m_settings).m_out ++
        (L.switchText (w.settings L.m_settings) ++ L.m_line) := by
    rw [Logger.destroy_streams, if_neg hd, List.append_nil, Logger.emit_streams,
      if_pos ⟨hpass, rfl⟩]
    simp [Logger.ownText, hendl]
  refine ⟨?_, fun k hk => ?_, ?_, fun ht hc => ?_, fun ht hc => ?_⟩
  · rw [hsink, Logger.switchType_fst, List.append_assoc]
  · rw [Logger.destroy_streams, if_neg hd, List.append_nil, Logger.emit_streams,
      if_neg (fun h => hk h.2)]
  · rw [Logger.destroy_finalised, if_neg hd, List.append_nil]
  · rw [hsink]
    simp only [Logger.switchText, if_pos ht, hc, colorSeq, List.append_assoc]
    rfl
  · have hnw : L.m_type ≠ log_warn := by rw [ht]; decide
    rw [hsink]
    simp only [Logger.switchText, if_neg hnw, if_pos ht, hc, colorSeq, List.append_assoc]
    rfl

/-- Witness of C18: a continuation warning with text `m`, colour off, one frame
on the call-stack: the sink gets `WARNING: m` and only this record is destroyed. -/
theorem Logger.destroy_continuation_witness :
    (Logger.destroy (plainWorld log_all false ["f".toList])
        { m_settings := 0, m_endl := false, m_type := log_warn,
          m_line := "m".toList }).streams 0 = "WARNING: m".toList ∧
      (Logger.destroy (plainWorld log_all false ["f".toList])
        { m_settings := 0, m_endl := false, m_type := log_warn,
          m_line := "m".toList }).finalised =
        [{ m_settings := 0, m_endl := false, m_type := log_warn, m_line := "m".toList }] :=
  ⟨(Logger.destroy_continuation (plainWorld log_all false ["f".toList])
      { m_settings := 0, m_endl := false, m_type := log_warn, m_line := "m".toList }
      rfl (by decide)).2.2.2.1 rfl rfl,
    (Logger.destroy_continuation (plainWorld log_all false ["f".toList])
      { m_settings := 0, m_endl := false, m_type := log_warn, m_line := "m".toList }
      rfl (by decide)).2.2.1⟩

/-! ## C19: termination and the depth of the recursion -/

theorem Logger.destroyDepth_succ (depth : Nat) (w : World) (L : Logger) :
    Logger.destroyDepth (depth + 1) w L =
      if L.dumpsStack w then
        printStackLoopWith (Logger.destroyDepth depth) L.m_settings (L.emit w)
          (w.settings L.m_settings).m_stack 0
      else some (L.emit w) := by
  rw [Logger.destroyDepth]
  unfold Logger.dumpsStack Logger.emit Logger.ownText World.write
  simp only [Logger.switchType_snd, Logger.switchType_fst, Logger.setFGcolor_eq,
    LoggerSettings.mask]
  by_cases hm : L.m_type &&& (w.settings L.m_settings).m_mask = 0
  · simp [hm]
  · by_cases he : L.m_endl = true
    · by_cases ht : L.m_type = log_warn ∨ L.m_type = log_error
      · simp [hm, he, ht]
      · simp [hm, he, ht]
    · simp [hm, he]

theorem Logger.destroyDepth_one_of_not_dumps (w : World) (L : Logger) (h : ¬ L.dumpsStack w) :
    Logger.destroyDepth 1 w L = some (L.emit w) := by
  rw [Logger.destroyDepth_succ, if_neg h]

theorem printStackLoopWith_depth_one (self : Nat) (rest : List Str) :
    ∀ (w : World) (indentLevel : Nat),
      printStackLoopWith (Logger.destroyDepth 1) self w rest indentLevel =
        some (emitAll w (stackRecords (w.settings self) (indentLevel + 1) rest)) := by
  induction rest with
  | nil => intro w indentLevel; rfl
  | cons line rest ih =>
    intro w indentLevel
    have hrec : ((((Logger.new defaultLoggerSettings).shl w (.type log_stack)).shl w
        (.text ((w.settings self).indent (indentLevel + 1)))).shl w (.text line)) =
        stackRecord (w.settings self) (indentLevel + 1) line := by
      simp [Logger.shl, Logger.new, Logger.newEndl, stackRecord, LoggerSettings.indent_eq]
    rw [printStackLoopWith, hrec,
      Logger.destroyDepth_one_of_not_dumps _ _ (stackRecord_dumpsStack _ _ _ _)]
    simp only []
    rw [ih, Logger.emit_settings]
    rfl

theorem Logger.destroyDepth_two (w : World) (L : Logger) :
    Logger.destroyDepth 2 w L = some (L.destroy w) := by
  rw [Logger.destroyDepth_succ, Logger.destroy_eq]
  split
  · rw [printStackLoopWith_depth_one, LoggerSettings.printStack_eq, Logger.emit_settings]
  · rfl

theorem stackRecords_type (s : LoggerSettings) (first : Nat) (stack : List Str) :
    ∀ R ∈ stackRecords s first stack, R.m_type = log_stack := by
  induction stack generalizing first with
  | nil => simp [stackRecords]
  | cons line rest ih =>
    intro R hR
    simp only [stackRecords, List.mem_cons] at hR
    rcases hR with h | h
    · rw [h]; rfl
    · exact ih _ R h

/-- C19 (the claim at a filtered warning): with warnings disabled in the mask
(errors and stack frames enabled) and one entry on the call-stack, the
destructor of a warning record destroys that record and no further one: zero
further records for a call-stack of depth 1, and no stream changes. -/
theorem Logger.destroy_filtered_warning :
    (Logger.destroy (plainWorld (log_error ||| log_stack) false ["f".toList])
        { m_settings := 0, m_endl := true, m_type := log_warn,
          m_line := "m".toList }).finalised =
        [{ m_settings := 0, m_endl := true, m_type := log_warn, m_line := "m".toList }] ∧
      ((plainWorld (log_error ||| log_stack) false ["f".toList]).settings 0).m_stack.length = 1 ∧
      (Logger.destroy (plainWorld (log_error ||| log_stack) false ["f".toList])
        { m_settings := 0, m_endl := true, m_type := log_warn,
          m_line := "m".toList }).streams 0 = [] := by
  refine ⟨?_, rfl, ?_⟩
  · rw [Logger.destroy_finalised]; decide
  · rw [Logger.destroy_streams, Logger.emit_streams]; decide

/-- C19 (amended): the destructor is a total function, and two nested destructor runs
are always enough: the run of the record and, inside its `printStack`, the runs
of the stack-frame records, none of which calls `printStack` again (for a
record of level `log_stack` one run is enough).  The records `printStack` makes
all have level `log_stack`, one per call-stack entry.  A warning or error
record whose destructor reaches `printStack` (it passes the mask and `m_endl`
holds) on a call-stack of depth `n` thus destroys exactly `n` further records;
any other record, a warning or error that the mask filters out included,
destroys none. -/
theorem Logger.destroy_depth_one (w : World) (L : Logger) :
    Logger.destroyDepth 2 w L = some (L.destroy w) ∧
      (L.m_type = log_stack → Logger.destroyDepth 1 w L = some (L.destroy w)) ∧
      (∀ self : Nat, ∃ Rs : List Logger,
        (LoggerSettings.printStack w self).finalised = w.finalised ++ Rs ∧
          Rs.length = (w.settings self).m_stack.length ∧
          ∀ R ∈ Rs, R.m_type = log_stack) ∧
      (L.dumpsStack w →
        (L.m_type = log_warn ∨ L.m_type = log_error) ∧
          ∃ Rs : List Logger,
            (L.destroy w).finalised = w.finalised ++ [L] ++ Rs ∧
              Rs.length = (w.settings L.m_settings).m_stack.length ∧
              ∀ R ∈ Rs, R.m_type = log_stack) ∧
      (¬ L.dumpsStack w → (L.destroy w).finalised = w.finalised ++ [L]) := by
  refine ⟨Logger.destroyDepth_two w L, fun ht => ?_, fun self => ?_, fun hd => ?_, fun hd => ?_⟩
  · have hd : ¬ L.dumpsStack w := by
      intro h
      rcases h.2.2 with h | h
      · rw [ht] at h; exact absurd h (by decide)
      · rw [ht] at h; exact absurd h (by decide)
    rw [Logger.destroyDepth_one_of_not_dumps w L hd, Logger.destroy_eq, if_neg hd]
  · refine ⟨stackRecords (w.settings self) 1 (w.settings self).m_stack, ?_,
      stackRecords_length _ _ _, stackRecords_type _ _ _⟩
    rw [LoggerSettings.printStack_eq, emitAll_finalised]
  · refine ⟨hd.2.2, stackRecords (w.settings L.m_settings) 1 (w.settings L.m_settings).m_stack,
      ?_, stackRecords_length _ _ _, stackRecords_type _ _ _⟩
    rw [Logger.destroy_finalised, if_pos hd]
  · rw [Logger.destroy_finalised, if_neg hd, List.append_nil]

/-- Witness of C19: a warning on a call-stack of two entries, every level
enabled. -/
theorem Logger.destroy_depth_one_witness :
    ∃ Rs : List Logger,
      (Logger.destroy (plainWorld log_all false ["f".toList, "g".toList])
          { m_settings := 0, m_endl := true, m_type := log_warn,
            m_line := "m".toList }).finalised =
          (plainWorld log_all false ["f".toList, "g".toList]).finalised ++
            [{ m_settings := 0, m_endl := true, m_type := log_warn, m_line := "m".toList }] ++
            Rs ∧
        Rs.length = 2 ∧ ∀ R ∈ Rs, R.m_type = log_stack :=
  ((Logger.destroy_depth_one (plainWorld log_all false ["f".toList, "g".toList])
    { m_settings := 0, m_endl := true, m_type := log_warn, m_line := "m".toList }).2.2.2.1
    (by decide)).2

end Clogger
